import Mathlib

namespace AppVat

/-!
Verification development for the multi-country VAT / company-identifier
extraction repository (`app_vat`).

Modelling conventions:
* Python strings are modelled as `List Char` (`Str` below).  All string
  literals occurring in the claims are ASCII, and the string operations of
  the source (lower-casing, digit tests, regex character classes) are
  modelled on that ASCII fragment.
* Python floats produced by `difflib.SequenceMatcher.ratio` are modelled as
  exact rationals (`ℚ`); no property proved here depends on rounding.
* Network and browser effects (`requests.Session.get`, Selenium, registry
  searches) are modelled as oracle functions supplied as parameters; a
  Python exception is modelled with `Except`, the raised message as the
  error value.
* `int(c)` on a digit character is modelled as `c.toNat - 48`; Python
  `str.isdigit` is modelled as the ASCII digit test (the repository only
  feeds regex-matched `[0-9]` strings to the validators).
-/

abbrev Str := List Char

/-- ASCII lower-casing, modelling Python `str.lower` on ASCII data. -/
def toLowerStr (s : Str) : Str := s.map Char.toLower

/-- Python `\s` whitespace class (ASCII fragment). -/
def isPySpace (c : Char) : Bool :=
  c = ' ' ∨ c = '\t' ∨ c = '\n' ∨ c = '\r' ∨ c = '\x0b' ∨ c = '\x0c'

/-- Python `\w` word-character class (ASCII fragment): alphanumeric or underscore. -/
def isWordChar (c : Char) : Bool := c.isAlphanum ∨ c = '_'

/-- Python `str.strip`: drop leading and trailing whitespace. -/
def pyStrip (s : Str) : Str :=
  ((s.dropWhile isPySpace).reverse.dropWhile isPySpace).reverse

/-- Does `pat` occur as a contiguous substring of `s`?  Models Python `in`. -/
def containsSub (s pat : Str) : Bool :=
  match s with
  | [] => decide (pat = [])
  | _ :: t => decide (s.take pat.length = pat) ∨ containsSub t pat

/-- Case-insensitive substring test (`pat` given in lower case). -/
def containsCI (s pat : Str) : Bool := containsSub (toLowerStr s) pat

/-- Python `str.startswith` for our list-of-characters strings. -/
def startsWithStr (s pat : Str) : Bool := decide (s.take pat.length = pat)

/-- Python truthiness of an optional string: `None` and `""` are falsy. -/
def truthy : Option Str → Bool
  | none => false
  | some s => decide (s ≠ [])

/-! ## Dutch validators (`new_vat_extractor_nl.py`, `DutchKvKExtractor`) -/

/-- `validate_kvk_number` (new_vat_extractor_nl.py lines 61-65): 8 digits,
not starting with `'0'`. -/
def validate_kvk_number (kvk_number : Str) : Bool :=
  if kvk_number.length ≠ 8 ∨ ¬ kvk_number.all Char.isDigit then false
  else ¬ startsWithStr kvk_number ['0']

/-- The weighted sum `sum(digits[i] * (9 - i) for i in range(8))` used by
`validate_rsin_number`. -/
def wsum (digits : List Nat) : Nat :=
  ((List.range 8).map (fun i => digits.getD i 0 * (9 - i))).sum

/-- `validate_rsin_number` (new_vat_extractor_nl.py lines 67-78): 9 digits,
11-weighted checksum; the final digit must equal the checksum when it is
below 2, and `11 - checksum` otherwise. -/
def validate_rsin_number (rsin_number : Str) : Bool :=
  if rsin_number.length ≠ 9 ∨ ¬ rsin_number.all Char.isDigit then false
  else
    let digits := rsin_number.map (fun c => c.toNat - 48)
    let checksum := wsum digits % 11
    if checksum < 2 then decide (digits.getD 8 0 = checksum)
    else decide (digits.getD 8 0 = 11 - checksum)

/-- `validate_btw_number` (new_vat_extractor_nl.py lines 80-84): 9 digits,
then the RSIN checksum. -/
def validate_btw_number (btw_number : Str) : Bool :=
  if btw_number.length ≠ 9 ∨ ¬ btw_number.all Char.isDigit then false
  else validate_rsin_number btw_number

/-! ### Arithmetic view of the RSIN check, used to settle claim C1 -/

/-- Render a list of digit values as the character string the validator
receives. -/
def renderDigits (d : List Nat) : Str := d.map Nat.digitChar

/-- `checksum8 d` is the 11-weighted checksum of the first eight digits. -/
def checksum8 (d : List Nat) : Nat := wsum d % 11

/-- The check digit demanded by `validate_rsin_number` for a given checksum. -/
def checkDigit (c : Nat) : Nat := if c < 2 then c else 11 - c

/-- The pure arithmetic core of `validate_rsin_number` on digit values. -/
def validateDigits (d : List Nat) : Bool :=
  decide (d.getD 8 0 = checkDigit (checksum8 d))

/-! ## Model of `difflib.SequenceMatcher` (CPython) with `isjunk=None`

`find_longest_match` is modelled by its documented contract: among all
maximal matching blocks of `a[alo:ahi]` and `b[blo:bhi]`, return the one
starting earliest in `a`, and among those the one starting earliest in `b`.
The autojunk popularity heuristic is omitted: no property proved in this
development depends on it (for identical strings the block-extension phase
of the CPython implementation restores the full-string match even when
popular elements are excluded from the inner table).
`get_matching_blocks`' queue traversal is modelled by the equivalent
in-order recursion; the final sorting and adjacent-block coalescing of
CPython preserve the total matched size, which is all `ratio` reads. -/

/-- Length of the common run of equal characters at the heads of two
strings. -/
def commonRun : Str → Str → Nat
  | x :: xs, y :: ys => if x = y then commonRun xs ys + 1 else 0
  | _, _ => 0

/-- The length of the matching block starting at positions `i` of `a` and
`j` of `b`, clipped to the windows `[i, ahi)` and `[j, bhi)`. -/
def blockLen (a b : Str) (ahi bhi : Nat) (p : Nat × Nat) : Nat :=
  commonRun ((a.drop p.1).take (ahi - p.1)) ((b.drop p.2).take (bhi - p.2))

/-- Candidate start positions, scanned in the order of the CPython loops
(`i` ascending, then `j` ascending). -/
def candPairs (alo ahi blo bhi : Nat) : List (Nat × Nat) :=
  (List.range' alo (ahi - alo)).flatMap
    (fun i => (List.range' blo (bhi - blo)).map (fun j => (i, j)))

/-- One step of the best-block search: replace the current best only on a
strictly longer block, which realizes the earliest-in-`a`, then
earliest-in-`b` tie-break. -/
def betterStep (cand : Nat × Nat → Nat) (best : Nat × Nat × Nat) (p : Nat × Nat) :
    Nat × Nat × Nat :=
  if best.2.2 < cand p then (p.1, p.2, cand p) else best

/-- Model of `SequenceMatcher.find_longest_match` (see the section
comment). -/
def findLongestMatch (a b : Str) (alo ahi blo bhi : Nat) : Nat × Nat × Nat :=
  (candPairs alo ahi blo bhi).foldl (betterStep (blockLen a b ahi bhi)) (alo, blo, 0)

/-- Model of `SequenceMatcher.get_matching_blocks` as an in-order recursion;
the first argument is recursion fuel, always supplied large enough. -/
def matchingBlocksAux (a b : Str) : Nat → Nat → Nat → Nat → Nat → List (Nat × Nat × Nat)
  | 0, _, _, _, _ => []
  | fuel + 1, alo, ahi, blo, bhi =>
    let m := findLongestMatch a b alo ahi blo bhi
    if m.2.2 = 0 then []
    else matchingBlocksAux a b fuel alo m.1 blo m.2.1
         ++ m :: matchingBlocksAux a b fuel (m.1 + m.2.2) ahi (m.2.1 + m.2.2) bhi

/-- Total size of all matching blocks, the `matches` quantity of
`SequenceMatcher.ratio`. -/
def totalMatched (a b : Str) : Nat :=
  ((matchingBlocksAux a b (a.length + b.length + 1) 0 a.length 0 b.length).map
    (fun m => m.2.2)).sum

/-- Model of `SequenceMatcher.ratio`: `2.0 * matches / length` when
`length = len(a) + len(b)` is nonzero, else `1.0`. -/
def ratioVal (a b : Str) : ℚ :=
  if a.length + b.length = 0 then 1
  else 2 * (totalMatched a b : ℚ) / ((a.length : ℚ) + (b.length : ℚ))

/-! ## The name-similarity scorer (`similarity`, new_vat_extractor_nl.py 92-107) -/

/-- Modelled: `unidecode.unidecode` is the identity on the ASCII strings
this development handles (the library transliterates non-ASCII characters;
no property proved here depends on that transliteration). -/
def unidecodeStr (s : Str) : Str := s

/-- Replace every maximal run of whitespace by a single space, modelling
`re.sub(r'\s+', ' ', s)`. -/
def collapseWs : Str → Str
  | [] => []
  | c :: t =>
    if isPySpace c then
      match t with
      | d :: _ => if isPySpace d then collapseWs t else ' ' :: collapseWs t
      | [] => [' ']
    else c :: collapseWs t

/-- The normalization inside `similarity` (new_vat_extractor_nl.py lines
98-102): lower-case, transliterate (modelled as identity on ASCII), map
non-word non-space characters to spaces, collapse whitespace runs, strip. -/
def normalize (s : Str) : Str :=
  let s1 := unidecodeStr (toLowerStr s)
  let s2 := s1.map (fun c => if isWordChar c ∨ isPySpace c then c else ' ')
  pyStrip (collapseWs s2)

/-- `similarity` (new_vat_extractor_nl.py lines 92-107): 0 on a falsy
argument, else the sequence-matcher ratio of the normalized strings. -/
def similarity (a b : Str) : ℚ :=
  if a = [] ∨ b = [] then 0
  else ratioVal (normalize a) (normalize b)

/-! ## Legal-name extraction (`extract_legal_name_from_website`,
new_vat_extractor_nl.py lines 109-212)

Modelled from the source with the BeautifulSoup parsing and the
regex/suffix matching stages externalized: a `SoupDoc` supplies, per
structural source and in document-scan order, the raw candidate strings
those stages produce.  The cleaning, the length window, the similarity
floor, the exclusion keywords, the token-count filter, the source tagging,
the deduplication and the final ranking are embedded below. -/

/-- A legal-name candidate as accumulated in `found_names`: text, source
tag, similarity score. -/
structure Cand where
  text : Str
  src : Str
  sim : ℚ
deriving DecidableEq

/-- The parsed/regex-matched raw material of one fetched page, in
document-scan order per source. -/
structure SoupDoc where
  titleNames : List Str
  metaNames : List (Str × Str)
  jsonLdNames : List (Str × Str)
  headerNames : List (Str × Str)
  copyrightNames : List Str
  textNames : List Str

/-- Cleaning used for title and copyright matches:
`re.sub(r'\s+', ' ', match.strip())`. -/
def cleanName (s : Str) : Str := collapseWs (pyStrip s)

/-- Number of whitespace-separated tokens, modelling `len(s.split())`. -/
def wordCountAux : Str → Bool → Nat
  | [], _ => 0
  | c :: t, inWord =>
    if isPySpace c then wordCountAux t false
    else (if inWord then 0 else 1) + wordCountAux t true

def wordCount (s : Str) : Nat := wordCountAux s false

/-- Exclusion keywords of the generic text scan (line 197). -/
def boilerplateWords : List Str :=
  [String.toList "cookie", String.toList "privacy", String.toList "voorwaarden",
   String.toList "contact", String.toList "home", String.toList "menu",
   String.toList "login", String.toList "search"]

/-- Shared length-window and similarity-floor filter (`5 <= len <= 150 and
similarity > 0.2`). -/
def passesWindow (q n : Str) : Bool :=
  5 ≤ n.length ∧ n.length ≤ 150 ∧ similarity n q > 1/5

def titleCands (q : Str) (l : List Str) : List Cand :=
  l.filterMap (fun m =>
    let clean := cleanName m
    if passesWindow q clean then some ⟨clean, String.toList "title", similarity clean q⟩
    else none)

def metaCands (q : Str) (l : List (Str × Str)) : List Cand :=
  l.filterMap (fun m =>
    if passesWindow q m.2 then
      some ⟨m.2, String.toList "meta:" ++ m.1, similarity m.2 q⟩
    else none)

def jsonLdCands (q : Str) (l : List (Str × Str)) : List Cand :=
  l.filterMap (fun m =>
    if passesWindow q m.2 then
      some ⟨m.2, String.toList "json-ld:" ++ m.1, similarity m.2 q⟩
    else none)

def headerCands (q : Str) (l : List (Str × Str)) : List Cand :=
  l.filterMap (fun m =>
    if passesWindow q m.2 then
      some ⟨m.2, String.toList "header:" ++ m.1, similarity m.2 q⟩
    else none)

def copyrightCands (q : Str) (l : List Str) : List Cand :=
  l.filterMap (fun m =>
    let clean := cleanName m
    if passesWindow q clean then some ⟨clean, String.toList "copyright", similarity clean q⟩
    else none)

/-- Edge-trimming of the generic text scan:
`re.sub(r'^[^\w]+|[^\w]+$', '', clean_name)`. -/
def trimNonWord (s : Str) : Str :=
  ((s.dropWhile (fun c => ¬ isWordChar c)).reverse.dropWhile (fun c => ¬ isWordChar c)).reverse

def textCands (q : Str) (l : List Str) : List Cand :=
  l.filterMap (fun m =>
    let clean := trimNonWord (cleanName m)
    if passesWindow q clean
        ∧ ¬ (boilerplateWords.any (fun w => containsCI clean w))
        ∧ 2 ≤ wordCount clean then
      some ⟨clean, String.toList "text_search", similarity clean q⟩
    else none)

/-- `found_names` in document-scan order: title, meta, JSON-LD, headers,
footer/copyright, generic text scan (lines 124-200). -/
def foundNames (doc : SoupDoc) (q : Str) : List Cand :=
  titleCands q doc.titleNames ++ metaCands q doc.metaNames
    ++ jsonLdCands q doc.jsonLdNames ++ headerCands q doc.headerNames
    ++ copyrightCands q doc.copyrightNames ++ textCands q doc.textNames

/-- One step of the `unique_names` dict construction (lines 203-206):
replace the stored entry only on strictly larger similarity, keeping the
first-insertion position of the key. -/
def updateCand (e : Cand) : List Cand → List Cand
  | [] => [e]
  | x :: xs =>
    if x.text = e.text then
      (if x.sim < e.sim then ⟨x.text, e.src, e.sim⟩ :: xs else x :: xs)
    else x :: updateCand e xs

def dedupByName (l : List Cand) : List Cand := l.foldl (fun acc e => updateCand e acc) []

/-- Stable insertion for descending similarity: a new element goes after
every element with similarity at least its own, modelling the stability of
Python `list.sort(key=..., reverse=True)`. -/
def insertDesc (x : Cand) : List Cand → List Cand
  | [] => [x]
  | y :: ys => if x.sim ≤ y.sim then y :: insertDesc x ys else x :: y :: ys

def sortBySimDesc (l : List Cand) : List Cand :=
  l.foldl (fun acc x => insertDesc x acc) []

/-- `extract_legal_name_from_website` ranking stage (lines 202-212): dedup
by exact text keeping the maximal similarity, stable sort by similarity
descending, return the top 5 as (text, source). -/
def extract_legal_name_from_website (doc : SoupDoc) (company_name : Str) :
    List (Str × Str) :=
  ((sortBySimDesc (dedupByName (foundNames doc company_name))).take 5).map
    (fun e => (e.text, e.src))

/-- The strict order realized by the stable descending sort when the
tie-break index is strictly increasing along the input. -/
def lexLt (g : Cand → Nat) (x y : Cand) : Prop :=
  y.sim < x.sim ∨ (x.sim = y.sim ∧ g x < g y)

/-- Document for the C3 counterexample: the title yields "Acme BV" and an
organization JSON-LD block yields "ACME BV". -/
def docC3 : SoupDoc :=
  ⟨[String.toList "Acme BV"], [], [(String.toList "legalName", String.toList "ACME BV")],
   [], [], []⟩

/-! ## Scanners for the identifier regexes

Each Python regex used by the embedded extractors is hand-translated into a
scanner over `Str`.  A scanner applied to a suffix of the input returns the
captured group, the whole matched text and the remaining suffix;
`re.finditer` is modelled by trying the scanner at each position from the
left, continuing after the end of a match (non-overlapping), exactly the
leftmost-match semantics of the originals.  All regexes are compiled with
`re.IGNORECASE`, hence the case-insensitive literals. -/

structure MRes where
  group : Str
  whole : Str
  rest : Str

abbrev Matcher := Str → Option MRes

/-- Case-insensitive literal (pattern written lower-case). -/
def litCI (pat s : Str) : Option (Str × Str) :=
  if toLowerStr (s.take pat.length) = pat then some (s.take pat.length, s.drop pat.length)
  else none

/-- `\s+`. -/
def wsPlus (s : Str) : Option (Str × Str) :=
  let w := s.takeWhile isPySpace
  if w = [] then none else some (w, s.drop w.length)

/-- Zero-or-more of a character class, e.g. `[\s#:]*`. -/
def starClass (p : Char → Bool) (s : Str) : Str × Str :=
  (s.takeWhile p, s.drop (s.takeWhile p).length)

/-- `[0-9]{n}`; as with the regex, a longer digit run matches on its first
`n` digits. -/
def digitsN (n : Nat) (s : Str) : Option (Str × Str) :=
  if (s.take n).length = n ∧ (s.take n).all Char.isDigit then some (s.take n, s.drop n)
  else none

/-- The separator class `[\s#:]`. -/
def isSepChar (c : Char) : Bool := isPySpace c ∨ c = '#' ∨ c = ':'

/-- Leftmost match: try the scanner at every position from the left. -/
def scanFirst (m : Matcher) : Str → Option MRes
  | [] => m []
  | c :: t =>
    match m (c :: t) with
    | some r => some r
    | none => scanFirst m t

/-- The `for match in finditer: if accepted: return` loop shape shared by
the extractors: scan for the leftmost match, apply the acceptance check,
and on rejection continue after the match.  `fuel` is always supplied as
`length + 1`, enough for every chain of non-overlapping matches. -/
def findAccepted (m : Matcher) (accept : MRes → Option Str) : Nat → Str → Option Str
  | 0, _ => none
  | fuel + 1, s =>
    match scanFirst m s with
    | none => none
    | some r =>
      match accept r with
      | some v => some v
      | none => findAccepted m accept fuel r.rest

/-- `for pattern in patterns: ...; return None` loop shape. -/
def firstPattern (pats : List Matcher) (accept : MRes → Option Str) (html : Str) :
    Option Str :=
  match pats with
  | [] => none
  | p :: ps =>
    match findAccepted p accept (html.length + 1) html with
    | some v => some v
    | none => firstPattern ps accept html

/-! ### The Dutch KvK / BTW patterns of the multi-country file
(complete_multi_country_vat_extractor.py lines 395-407) -/

/-- `KvK[\s#:]*([0-9]{8})` -/
def kvkPat1 : Matcher := fun s => do
  let (l1, s1) ← litCI (String.toList "kvk") s
  let (l2, s2) := starClass isSepChar s1
  let (g, s3) ← digitsN 8 s2
  pure ⟨g, l1 ++ l2 ++ g, s3⟩

/-- `KvK-nummer[\s#:]*([0-9]{8})` -/
def kvkPat2 : Matcher := fun s => do
  let (l1, s1) ← litCI (String.toList "kvk-nummer") s
  let (l2, s2) := starClass isSepChar s1
  let (g, s3) ← digitsN 8 s2
  pure ⟨g, l1 ++ l2 ++ g, s3⟩

/-- `Kamer\s+van\s+Koophandel[\s#:]*([0-9]{8})` -/
def kvkPat3 : Matcher := fun s => do
  let (l1, s1) ← litCI (String.toList "kamer") s
  let (w1, s2) ← wsPlus s1
  let (l2, s3) ← litCI (String.toList "van") s2
  let (w2, s4) ← wsPlus s3
  let (l3, s5) ← litCI (String.toList "koophandel") s4
  let (l4, s6) := starClass isSepChar s5
  let (g, s7) ← digitsN 8 s6
  pure ⟨g, l1 ++ w1 ++ l2 ++ w2 ++ l3 ++ l4 ++ g, s7⟩

/-- `Chamber\s+of\s+Commerce[\s#:]*([0-9]{8})` -/
def kvkPat4 : Matcher := fun s => do
  let (l1, s1) ← litCI (String.toList "chamber") s
  let (w1, s2) ← wsPlus s1
  let (l2, s3) ← litCI (String.toList "of") s2
  let (w2, s4) ← wsPlus s3
  let (l3, s5) ← litCI (String.toList "commerce") s4
  let (l4, s6) := starClass isSepChar s5
  let (g, s7) ← digitsN 8 s6
  pure ⟨g, l1 ++ w1 ++ l2 ++ w2 ++ l3 ++ l4 ++ g, s7⟩

/-- `CoC[\s#:]*([0-9]{8})` -/
def kvkPat5 : Matcher := fun s => do
  let (l1, s1) ← litCI (String.toList "coc") s
  let (l2, s2) := starClass isSepChar s1
  let (g, s3) ← digitsN 8 s2
  pure ⟨g, l1 ++ l2 ++ g, s3⟩

def MC_kvk_patterns : List Matcher := [kvkPat1, kvkPat2, kvkPat3, kvkPat4, kvkPat5]

/-- `([0-9]{9})B[0-9]{2}` -/
def btwNum (s : Str) : Option (Str × Str × Str) := do
  let (g, s1) ← digitsN 9 s
  let (b, s2) ← litCI (String.toList "b") s1
  let (d2, s3) ← digitsN 2 s2
  pure (g, g ++ b ++ d2, s3)

/-- `(?:NL)?([0-9]{9})B[0-9]{2}`, with the regex backtracking on the
optional `NL`. -/
def btwAfterLabel (s : Str) : Option (Str × Str × Str) :=
  match litCI (String.toList "nl") s with
  | some (l, s1) =>
    (match btwNum s1 with
     | some (g, c, r) => some (g, l ++ c, r)
     | none => btwNum s)
  | none => btwNum s

/-- `BTW[\s#:]*(?:NL)?([0-9]{9})B[0-9]{2}` -/
def btwPat1 : Matcher := fun s => do
  let (l1, s1) ← litCI (String.toList "btw") s
  let (l2, s2) := starClass isSepChar s1
  let (g, c, r) ← btwAfterLabel s2
  pure ⟨g, l1 ++ l2 ++ c, r⟩

/-- `VAT[\s#:]*(?:NL)?([0-9]{9})B[0-9]{2}` -/
def btwPat2 : Matcher := fun s => do
  let (l1, s1) ← litCI (String.toList "vat") s
  let (l2, s2) := starClass isSepChar s1
  let (g, c, r) ← btwAfterLabel s2
  pure ⟨g, l1 ++ l2 ++ c, r⟩

/-- `NL([0-9]{9})B[0-9]{2}` -/
def btwPat3 : Matcher := fun s => do
  let (l1, s1) ← litCI (String.toList "nl") s
  let (g, c, r) ← btwNum s1
  pure ⟨g, l1 ++ c, r⟩

def MC_btw_patterns : List Matcher := [btwPat1, btwPat2, btwPat3]

/-- The per-match acceptance of `extract_kvk_from_html` (lines 415-419):
strip non-digits, keep an 8-character code. -/
def acceptLen8 (r : MRes) : Option Str :=
  let clean := r.group.filter Char.isDigit
  if clean.length = 8 then some clean else none

/-- The per-match acceptance of `extract_btw_from_html` (lines 425-429). -/
def acceptLen9 (r : MRes) : Option Str :=
  let clean := r.group.filter Char.isDigit
  if clean.length = 9 then some clean else none

/-- `DutchKvKExtractor.extract_kvk_from_html` of the multi-country file
(complete_multi_country_vat_extractor.py lines 412-420): the patterns in
order, first 8-digit hit returned — with NO leading-zero validation. -/
def MC_extract_kvk_from_html (html : Str) : Option Str :=
  firstPattern MC_kvk_patterns acceptLen8 html

/-- `DutchKvKExtractor.extract_btw_from_html` of the multi-country file
(lines 422-430). -/
def MC_extract_btw_from_html (html : Str) : Option Str :=
  firstPattern MC_btw_patterns acceptLen9 html

/-! ### The UK company-number patterns
(complete_multi_country_vat_extractor.py lines 56-63) -/

/-- `Company\s+number[\s:]*([0-9]{8})` -/
def ukPat1 : Matcher := fun s => do
  let (l1, s1) ← litCI (String.toList "company") s
  let (w1, s2) ← wsPlus s1
  let (l2, s3) ← litCI (String.toList "number") s2
  let (l3, s4) := starClass (fun c => isPySpace c ∨ c = ':') s3
  let (g, s5) ← digitsN 8 s4
  pure ⟨g, l1 ++ w1 ++ l2 ++ l3 ++ g, s5⟩

/-- `Company\s+No[\s.:]*([0-9]{8})` -/
def ukPat2 : Matcher := fun s => do
  let (l1, s1) ← litCI (String.toList "company") s
  let (w1, s2) ← wsPlus s1
  let (l2, s3) ← litCI (String.toList "no") s2
  let (l3, s4) := starClass (fun c => isPySpace c ∨ c = '.' ∨ c = ':') s3
  let (g, s5) ← digitsN 8 s4
  pure ⟨g, l1 ++ w1 ++ l2 ++ l3 ++ g, s5⟩

/-- `Registration\s+number[\s:]*([0-9]{8})` -/
def ukPat3 : Matcher := fun s => do
  let (l1, s1) ← litCI (String.toList "registration") s
  let (w1, s2) ← wsPlus s1
  let (l2, s3) ← litCI (String.toList "number") s2
  let (l3, s4) := starClass (fun c => isPySpace c ∨ c = ':') s3
  let (g, s5) ← digitsN 8 s4
  pure ⟨g, l1 ++ w1 ++ l2 ++ l3 ++ g, s5⟩

/-- `Registered\s+number[\s:]*([0-9]{8})` -/
def ukPat4 : Matcher := fun s => do
  let (l1, s1) ← litCI (String.toList "registered") s
  let (w1, s2) ← wsPlus s1
  let (l2, s3) ← litCI (String.toList "number") s2
  let (l3, s4) := starClass (fun c => isPySpace c ∨ c = ':') s3
  let (g, s5) ← digitsN 8 s4
  pure ⟨g, l1 ++ w1 ++ l2 ++ l3 ++ g, s5⟩

/-- `([0-9]{8})(?=\s*(?:Company|Registration|Registered))` — the lookahead
consumes nothing. -/
def ukPat5 : Matcher := fun s => do
  let (g, s1) ← digitsN 8 s
  let (_, s2) := starClass isPySpace s1
  let _ ← (litCI (String.toList "company") s2).orElse
    (fun _ => (litCI (String.toList "registration") s2).orElse
      (fun _ => litCI (String.toList "registered") s2))
  pure ⟨g, g, s1⟩

/-- `(?:SC|OC|SO)([0-9]{6})` -/
def ukPat6 : Matcher := fun s => do
  let (l1, s1) ← (litCI (String.toList "sc") s).orElse
    (fun _ => (litCI (String.toList "oc") s).orElse
      (fun _ => litCI (String.toList "so") s))
  let (g, s2) ← digitsN 6 s1
  pure ⟨g, l1 ++ g, s2⟩

def uk_company_number_patterns : List Matcher :=
  [ukPat1, ukPat2, ukPat3, ukPat4, ukPat5, ukPat6]

/-- The per-match acceptance of
`UKCompanyNumberExtractor.extract_company_number_from_html` (lines 76-85):
8 digits are returned as-is, 6-digit hits get the `SC`/`OC` prefix back
from the whole match, anything else is skipped. -/
def acceptUK (r : MRes) : Option Str :=
  let clean := r.group.filter Char.isDigit
  if clean.length = 8 then some clean
  else if clean.length = 6 then
    if containsCI r.whole (String.toList "sc") then some (String.toList "SC" ++ clean)
    else if containsCI r.whole (String.toList "oc") then some (String.toList "OC" ++ clean)
    else none
  else none

/-- `UKCompanyNumberExtractor.extract_company_number_from_html`
(complete_multi_country_vat_extractor.py lines 71-86). -/
def extract_company_number_from_html (html : Str) : Option Str :=
  firstPattern uk_company_number_patterns acceptUK html

/-! ## Page acquisition (new_vat_extractor_nl.py lines 549-589) -/

/-- A transport-level HTTP response as surfaced by `requests.Session.get`
after redirect handling: final status code, content-type header, body. -/
structure HttpResp where
  status : Nat
  contentType : Str
  text : Str
deriving DecidableEq

/-- Python exceptions, split the way the `except` clauses of the source
split them: `requests.exceptions.RequestException` (timeouts, connection
errors, `HTTPError` from `raise_for_status`, redirect loops) versus
everything else. -/
inductive PyErr
  | requestExc (msg : Str)
  | otherExc (msg : Str)
deriving DecidableEq

/-- The network oracle: the behaviour of `self.session.get(url, ...)`. -/
abbrev NetOracle := Str → Except PyErr HttpResp

/-- `Response.raise_for_status`: raises `HTTPError` (a RequestException)
exactly for 4xx/5xx status codes. -/
def raise_for_status (r : HttpResp) : Except PyErr Unit :=
  if 400 ≤ r.status ∧ r.status < 600 then
    Except.error (PyErr.requestExc (String.toList "HTTPError"))
  else Except.ok ()

/-- `fetch_with_requests` (new_vat_extractor_nl.py lines 549-565): GET,
`raise_for_status`, return the text when the content type mentions html or
xml, else None; `except requests.exceptions.RequestException: return None`.
The single except clause of the source wraps both raising calls; it is
written here as a handler at each raising point, which is the same
control flow.  Exceptions outside `RequestException` propagate. -/
def fetch_with_requests (net : NetOracle) (url : Str) : Except PyErr (Option Str) :=
  match net url with
  | Except.error (PyErr.requestExc _) => Except.ok none
  | Except.error e => Except.error e
  | Except.ok r =>
    match raise_for_status r with
    | Except.error (PyErr.requestExc _) => Except.ok none
    | Except.error e => Except.error e
    | Except.ok _ =>
      if containsCI r.contentType (String.toList "html")
          ∨ containsCI r.contentType (String.toList "xml") then Except.ok (some r.text)
      else Except.ok none

/-- One rendered-fetch attempt of the Selenium driver (navigate, wait,
scroll, read `page_source`), or the exception it raises. -/
abbrev DriverOracle := Str → Except PyErr Str

/-- `fetch_with_selenium` (lines 567-589): a missing driver (setup failed,
modelled as `none`) gives None; `except Exception` catches everything and
gives None. -/
def fetch_with_selenium (driver : Option DriverOracle) (url : Str) :
    Except PyErr (Option Str) :=
  match driver with
  | none => Except.ok none
  | some d =>
    match d url with
    | Except.ok s => Except.ok (some s)
    | Except.error _ => Except.ok none

/-! ## The multi-country orchestrator
(complete_multi_country_vat_extractor.py lines 620-688) -/

/-- The outcome dict shape shared by the multi-country extractors. -/
structure Outcome where
  company_name : Str := []
  website : Str := []
  legal_name : Str := []
  country : Str := []
  status : Str := []
  kvk : Option Str := none
  btw : Option Str := none
  company_number : Option Str := none
deriving DecidableEq

/-- `COUNTRY_CODES` (lines 29-39). -/
def COUNTRY_CODES : List (Str × Str) :=
  [(String.toList "AT", String.toList "Austria"),
   (String.toList "CH", String.toList "Switzerland"),
   (String.toList "DE", String.toList "Germany"),
   (String.toList "FR", String.toList "France"),
   (String.toList "GB", String.toList "United Kingdom"),
   (String.toList "IT", String.toList "Italy"),
   (String.toList "LU", String.toList "Luxembourg"),
   (String.toList "NL", String.toList "Netherlands"),
   (String.toList "PT", String.toList "Portugal")]

/-- The keys of the `self.extractors` table (lines 622-632) coincide with
the keys of `COUNTRY_CODES`. -/
def supportedCodes : List Str := COUNTRY_CODES.map (fun p => p.1)

/-- `COUNTRY_CODES.get(country_code, country_code)`. -/
def lookupCountry (code : Str) : Str :=
  match COUNTRY_CODES.find? (fun p => p.1 == code) with
  | some p => p.2
  | none => code

/-- The effect monad of the orchestrator model: the state counts fetch
(network) calls performed by extractors, the exception monad models an
uncaught Python exception carrying its message. -/
abbrev OrcM := StateT Nat (Except Str)

/-- Behaviour of the nine country extractors, abstracted as an oracle:
each receives (country, name, website), may perform fetches (counted in
the state) and may raise. -/
abbrev Extractors := Str → Str → Str → OrcM Outcome

/-- `CompleteMultiCountryVATExtractor.process_single_company` (lines
634-647): dispatch on membership of the country code in the extractor
table; an unsupported code gets the fallback outcome directly, with no
extractor call. -/
def process_single_company (ext : Extractors) (company_name website country_code : Str) :
    OrcM Outcome :=
  if country_code ∈ supportedCodes then ext country_code company_name website
  else
    pure
      { company_name := company_name
        website := website
        country := lookupCountry country_code
        status := String.toList "Country not supported" }

/-- One input row after column detection (name, website, country cell). -/
structure CompanyRow where
  name : Str
  website : Str
  country : Str

/-- ASCII upper-casing, modelling Python `str.upper` on ASCII data. -/
def toUpperStr (s : Str) : Str := s.map Char.toUpper

/-- The country detection of `process_company_list` (lines 673-680): a
2-character cell that is a key of `COUNTRY_CODES`; else a full-name lookup
in the inverted table — which, as in the source, compares the UPPER-cased
cell against the mixed-case country names; else the `GB` default. -/
def detectCountry (v : Str) : Str :=
  let c := toUpperStr (pyStrip v)
  if c.length = 2 ∧ c ∈ supportedCodes then c
  else
    match COUNTRY_CODES.find? (fun p => p.2 == c) with
    | some p => p.1
    | none => String.toList "GB"

/-- `process_company_list` (lines 649-688): the per-row loop.  Column
detection heuristics, the progress callback and the politeness delay are
external; note there is NO try/except around `process_single_company` —
the monadic bind propagates an extractor exception out of the loop. -/
def process_company_list (ext : Extractors) (rows : List CompanyRow) :
    OrcM (List Outcome) :=
  rows.mapM (fun row =>
    process_single_company ext row.name row.website (detectCountry row.country))

/-! ## The Dutch extractor of the multi-country file
(complete_multi_country_vat_extractor.py lines 432-455) -/

/-- `DutchKvKExtractor.process_company` of the multi-country file: fetch
the company page, extract KvK and BTW from the raw HTML (no validation
beyond the digit count), no registry step; `except Exception` only logs. -/
def MC_NL_process_company (net : NetOracle) (company_name : Str)
    (company_url : Option Str) : Outcome :=
  let base : Outcome :=
    { company_name := company_name
      website := company_url.getD []
      legal_name := company_name
      status := String.toList "Not Found" }
  if truthy company_url then
    match net (company_url.getD []) with
    | Except.error _ => base
    | Except.ok resp =>
      if resp.status = 200 then
        let kvk := MC_extract_kvk_from_html resp.text
        let btw := MC_extract_btw_from_html resp.text
        let r1 := if truthy kvk then
            { base with kvk := kvk, status := String.toList "Found" }
          else base
        if truthy btw then { r1 with btw := btw, status := String.toList "Found" }
        else r1
      else base
  else base

/-! ## The UK extractor of the multi-country file
(complete_multi_country_vat_extractor.py lines 112-143) -/

/-- `UKCompanyNumberExtractor.process_company`:
`search_companies_house_by_name` is abstracted as a total oracle (its body
is fully wrapped in try/except and returns None on any failure, lines
88-110); the website fetch may raise, caught by the inner except.  A
website-extracted number OVERWRITES the registry number (lines 134-137). -/
def UK_process_company (chSearch : Str → Option Str) (net : NetOracle)
    (company_name : Str) (company_url : Option Str) : Outcome :=
  let base : Outcome :=
    { company_name := company_name
      website := company_url.getD []
      legal_name := company_name
      status := String.toList "Not Found" }
  let r1 :=
    if truthy (chSearch company_name) then
      { base with company_number := chSearch company_name, status := String.toList "Found" }
    else base
  if truthy company_url then
    match net (company_url.getD []) with
    | Except.error _ => r1
    | Except.ok resp =>
      if resp.status = 200 then
        let w := extract_company_number_from_html resp.text
        if truthy w then { r1 with company_number := w, status := String.toList "Found" }
        else r1
      else r1
  else r1

/-! ## The standalone Dutch pipeline
(`process_single_dutch_company`, new_vat_extractor_nl.py lines 646-798) -/

/-- The outcome dict of `process_single_dutch_company` (lines 655-675).
The passthrough pe_*/target_* columns and the `search_attempts` journal are
omitted (no claim reads them); string fields that can hold `''` or `None`
are unified as `Option Str` with `none` for both falsy values. -/
structure NLResult where
  original_company_name : Str := []
  website : Str := []
  legal_name_website : Str := []
  legal_name_source : Str := []
  legal_name_kvk : Str := []
  kvk_number : Option Str := none
  rsin : Option Str := none
  lei : Option Str := none
  btw : Option Str := none
  status : Str := []
  search_location : Str := []
  error : Option Str := none
deriving DecidableEq

/-- The `found_codes` dict of `search_website_for_info` (line 605). -/
structure NLCodes where
  kvk : Option Str := none
  rsin : Option Str := none
  lei : Option Str := none
  btw : Option Str := none
deriving DecidableEq

/-- A record of one effectful step call of the Dutch pipeline. -/
inductive NLTag
  | kvkSearch (name : Str)
  | websiteInfo (url name : Str)
  | leiLookup (name : Str)
deriving DecidableEq

/-- Oracles for the effectful steps of the Dutch pipeline:
`search_kvk_register_enhanced` (whose unused third component is dropped),
`search_website_for_info` and `search_lei_lookup`.  An `Except.error`
models an uncaught Python exception carrying its message. -/
structure NLOracle where
  kvkSearch : Str → Except Str (Option Str × Option Str)
  websiteInfo : Str → Str → Except Str (List (Str × Str) × NLCodes)
  leiLookup : Str → Except Str (Option Str × Option Str)

/-- Website normalization (lines 650-653): strip, then prepend `https://`
when non-empty and not starting with `http`. -/
def normWebsite (w : Str) : Str :=
  let website := pyStrip w
  if website ≠ [] ∧ ¬ startsWithStr website (String.toList "http") then
    String.toList "https://" ++ website
  else website

/-- The initial result dict (lines 655-675). -/
def nlInit (name website : Str) : NLResult :=
  { original_company_name := name
    website := website
    status := String.toList "not_found" }

/-- The Step-3 loop (lines 726-739): KvK register search with up to three
website-found legal names, returning on the first hit.  On a raised
exception the error carries the message, the result dict at that moment
and the trace so far. -/
def tryKvkNames (O : NLOracle) (lns : List (Str × Str)) (r : NLResult)
    (tr : List NLTag) :
    Except (Str × NLResult × List NLTag) (Option NLResult × List NLTag) :=
  match lns with
  | [] => Except.ok (none, tr)
  | (ln, _) :: rest =>
    match O.kvkSearch ln with
    | Except.error m => Except.error (m, r, tr ++ [NLTag.kvkSearch ln])
    | Except.ok (kn, kl) =>
      if truthy kn then
        Except.ok (some
          { r with kvk_number := kn
                   legal_name_kvk := kl.getD []
                   status := String.toList "found"
                   search_location := String.toList "kvk_via_website_name" },
          tr ++ [NLTag.kvkSearch ln])
      else tryKvkNames O rest r (tr ++ [NLTag.kvkSearch ln])

/-- The Step-4 inner loop (lines 746-751): LEI lookup with up to two
website-found legal names, stopping at the first truthy code. -/
def tryLeiNames (O : NLOracle) (lns : List (Str × Str)) (r : NLResult)
    (tr : List NLTag) :
    Except (Str × NLResult × List NLTag) ((Option Str × Option Str) × List NLTag) :=
  match lns with
  | [] => Except.ok ((none, none), tr)
  | (ln, _) :: rest =>
    match O.leiLookup ln with
    | Except.error m => Except.error (m, r, tr ++ [NLTag.leiLookup ln])
    | Except.ok (lc, lname) =>
      if truthy lc then Except.ok ((lc, lname), tr ++ [NLTag.leiLookup ln])
      else tryLeiNames O rest r (tr ++ [NLTag.leiLookup ln])

/-- The try-block body of `process_single_dutch_company` (lines 677-779):
Steps 1-5 with their early returns. -/
def nlSteps (O : NLOracle) (company_name website : Str) (r0 : NLResult) :
    Except (Str × NLResult × List NLTag) (NLResult × List NLTag) :=
  match O.kvkSearch company_name with
  | Except.error m => Except.error (m, r0, [NLTag.kvkSearch company_name])
  | Except.ok (kn, kl) =>
    let tr1 := [NLTag.kvkSearch company_name]
    if truthy kn ∧ truthy kl then
      Except.ok
        ({ r0 with kvk_number := kn
                   legal_name_kvk := kl.getD []
                   status := String.toList "found"
                   search_location := String.toList "kvk_register_direct" }, tr1)
    else if website = [] then
      Except.ok
        ({ r0 with status := String.toList "no_website"
                   error := some (String.toList
                     "No website provided and not found in KvK register") }, tr1)
    else
      match O.websiteInfo website company_name with
      | Except.error m =>
        Except.error (m, r0, tr1 ++ [NLTag.websiteInfo website company_name])
      | Except.ok (lns, codes) =>
        let tr2 := tr1 ++ [NLTag.websiteInfo website company_name]
        let r1 :=
          match lns with
          | [] => r0
          | (n, src) :: _ =>
            { r0 with legal_name_website := n, legal_name_source := src }
        let r2 :=
          { r1 with kvk_number := codes.kvk
                    rsin := codes.rsin
                    lei := codes.lei
                    btw := codes.btw }
        if truthy codes.kvk then
          Except.ok
            ({ r2 with status := String.toList "found"
                       search_location := String.toList "website_direct" }, tr2)
        else
          match (if lns ≠ [] then tryKvkNames O (lns.take 3) r2 tr2
                 else Except.ok (none, tr2)) with
          | Except.error e => Except.error e
          | Except.ok (some rfound, tr3) => Except.ok (rfound, tr3)
          | Except.ok (none, tr3) =>
            match O.leiLookup company_name with
            | Except.error m =>
              Except.error (m, r2, tr3 ++ [NLTag.leiLookup company_name])
            | Except.ok (lc0, lname0) =>
              let tr4 := tr3 ++ [NLTag.leiLookup company_name]
              match (if ¬ truthy lc0 ∧ lns ≠ [] then tryLeiNames O (lns.take 2) r2 tr4
                     else Except.ok ((lc0, lname0), tr4)) with
              | Except.error e => Except.error e
              | Except.ok ((lc, lname), tr5) =>
                if truthy lc then
                  let r3 := { r2 with lei := lc }
                  let r4 :=
                    if truthy lname then
                      { r3 with legal_name_website := lname.getD []
                                legal_name_source := String.toList "lei_lookup" }
                    else r3
                  Except.ok
                    ({ r4 with status := String.toList "found_lei_only"
                               search_location := String.toList "lei_lookup" }, tr5)
                else if truthy codes.rsin ∨ truthy codes.btw then
                  Except.ok
                    ({ r2 with status := String.toList "found_partial"
                               search_location := String.toList "website_other_codes" }, tr5)
                else
                  Except.ok
                    ({ r2 with status := String.toList "not_found"
                               search_location := String.toList "exhausted_all_methods" }, tr5)

/-- `process_single_dutch_company` (lines 646-787) with the effectful
steps delegated to an `NLOracle`.  The second component is the trace of
oracle calls performed.  The outermost match is the try/except of lines
677-787: any oracle failure becomes `status = "error"` with the raised
message preserved in `error` (lines 781-784), the fields mutated before
the failure kept. -/
def process_single_dutch_company (O : NLOracle) (company_name websiteRaw : Str) :
    NLResult × List NLTag :=
  let website := normWebsite websiteRaw
  match nlSteps O company_name website (nlInit company_name website) with
  | Except.ok (r, tr) => (r, tr)
  | Except.error (m, r, tr) =>
    ({ r with status := String.toList "error", error := some m }, tr)

/-- The `process_dutch_companies` batch loop (lines 789-798): the
per-company call is made for each row, with no try/except in the loop —
but `process_single_dutch_company` itself never raises. -/
def process_dutch_companies (O : NLOracle) (companies : List (Str × Str)) :
    List (NLResult × List NLTag) :=
  companies.map (fun c => process_single_dutch_company O c.1 c.2)

/-- An extractor oracle that would both count a fetch and raise — the
unsupported-country dispatch must never reach it. -/
def extBoom : Extractors := fun _ _ _ => fun _ => Except.error (String.toList "boom")

def rowAlpha : CompanyRow :=
  ⟨String.toList "Alpha Ltd", String.toList "https://alpha.example", String.toList "GB"⟩

def rowBeta : CompanyRow :=
  ⟨String.toList "Beta Ltd", [], String.toList "NL"⟩

/-- An oracle whose registry search raises. -/
def nlOracleBoom : NLOracle :=
  { kvkSearch := fun _ => Except.error (String.toList "KvK register down")
    websiteInfo := fun _ _ => Except.ok ([], {})
    leiLookup := fun _ => Except.ok (none, none) }

def netOk : NetOracle := fun _ =>
  Except.ok ⟨200, String.toList "text/html; charset=utf-8", String.toList "<html></html>"⟩

def netTimeout : NetOracle := fun _ =>
  Except.error (PyErr.requestExc (String.toList "ReadTimeout"))

def net500 : NetOracle := fun _ =>
  Except.ok ⟨500, String.toList "text/html", String.toList "oops"⟩

/-- A final response that is non-2xx but below 400, with an HTML body. -/
def net304 : NetOracle := fun _ =>
  Except.ok ⟨304, String.toList "text/html", String.toList "cached page"⟩

/-- The fetched Netherlands page of the C2 scenario. -/
def netC2 : NetOracle := fun _ =>
  Except.ok ⟨200, String.toList "text/html", String.toList "KvK: 01234567"⟩

def chSearchC10 : Str → Option Str := fun _ => some (String.toList "87654321")

def netC10 : NetOracle := fun _ =>
  Except.ok ⟨200, String.toList "text/html", String.toList "Company number: 12345678"⟩

def nlOracleC7a : NLOracle :=
  { kvkSearch := fun _ =>
      Except.ok (some (String.toList "12345678"), some (String.toList "Acme BV"))
    websiteInfo := fun _ _ => Except.ok ([], {})
    leiLookup := fun _ => Except.ok (none, none) }

def nlOracleC7b : NLOracle :=
  { kvkSearch := fun _ => Except.ok (none, none)
    websiteInfo := fun _ _ => Except.ok ([], { kvk := some (String.toList "44444444") })
    leiLookup := fun _ => Except.ok (none, none) }

def nlOracleC7c : NLOracle :=
  { kvkSearch := fun n =>
      if n = String.toList "Acme BV" then
        Except.ok (some (String.toList "33333333"), some (String.toList "Acme BV"))
      else Except.ok (none, none)
    websiteInfo := fun _ _ =>
      Except.ok ([(String.toList "Acme BV", String.toList "title")], {})
    leiLookup := fun _ => Except.ok (none, none) }

def nlOracleC9 : NLOracle :=
  { kvkSearch := fun _ => Except.ok (none, none)
    websiteInfo := fun _ _ => Except.ok ([], {})
    leiLookup := fun _ => Except.ok (none, none) }

/-! ## Theorems -/

theorem toNat_digitChar {k : Nat} (hk : k < 10) :
    (Nat.digitChar k).toNat - 48 = k := by
  interval_cases k <;> decide

theorem isDigit_digitChar {k : Nat} (hk : k < 10) :
    (Nat.digitChar k).isDigit = true := by
  interval_cases k <;> decide

/-- Bridging lemma: on a rendered 9-digit vector the string validator agrees
with the arithmetic validator. -/
theorem validate_rsin_renderDigits (d : List Nat) (h9 : d.length = 9)
    (hd : ∀ x ∈ d, x < 10) :
    validate_rsin_number (renderDigits d) = validateDigits d := by
  have hlen : (renderDigits d).length = 9 := by
    simp [renderDigits, h9]
  have hall : (renderDigits d).all Char.isDigit = true := by
    rw [List.all_eq_true]
    intro c hc
    rw [renderDigits, List.mem_map] at hc
    obtain ⟨x, hx, rfl⟩ := hc
    exact isDigit_digitChar (hd x hx)
  have hmap : (renderDigits d).map (fun c => c.toNat - 48) = d := by
    simp only [renderDigits, List.map_map]
    conv_rhs => rw [← List.map_id d]
    apply List.map_congr_left
    intro x hx
    simp [Function.comp, toNat_digitChar (hd x hx)]
  rw [validate_rsin_number, if_neg (by simp [hlen, hall])]
  simp only [hmap, validateDigits, checksum8, checkDigit, wsum]
  rw [apply_ite (fun t => decide (d.getD 8 0 = t))]

theorem listRangeMapSum (n : Nat) (f : Nat → Nat) :
    ((List.range n).map f).sum = ∑ i ∈ Finset.range n, f i := by
  induction n with
  | zero => simp
  | succ k ih =>
    rw [List.range_succ, List.map_append, List.sum_append, Finset.sum_range_succ, ih]
    simp

theorem getD_set_self {l : List Nat} {i : Nat} {e : Nat} (h : i < l.length) :
    (l.set i e).getD i 0 = e := by
  simp [List.getD_eq_getElem?_getD, List.getElem?_set_self h]

theorem getD_set_ne {l : List Nat} {i j e : Nat} (h : i ≠ j) :
    (l.set i e).getD j 0 = l.getD j 0 := by
  simp [List.getD_eq_getElem?_getD, List.getElem?_set_ne h]

theorem wsum_set_ge (d : List Nat) (i e : Nat) (hi : 8 ≤ i) :
    wsum (d.set i e) = wsum d := by
  unfold wsum
  rw [listRangeMapSum, listRangeMapSum]
  apply Finset.sum_congr rfl
  intro j hj
  rw [Finset.mem_range] at hj
  rw [getD_set_ne (by omega)]

theorem wsum_set_lt (d : List Nat) (i e : Nat) (hi : i < 8) (hlen : i < d.length) :
    wsum (d.set i e) + d.getD i 0 * (9 - i) = wsum d + e * (9 - i) := by
  have hmem : i ∈ Finset.range 8 := Finset.mem_range.mpr hi
  have e1 : wsum (d.set i e)
      = (∑ j ∈ (Finset.range 8).erase i, d.getD j 0 * (9 - j)) + e * (9 - i) := by
    unfold wsum
    rw [listRangeMapSum, ← Finset.sum_erase_add _ _ hmem, getD_set_self hlen]
    congr 1
    apply Finset.sum_congr rfl
    intro j hj
    rw [getD_set_ne (Ne.symm (Finset.ne_of_mem_erase hj))]
  have e2 : wsum d
      = (∑ j ∈ (Finset.range 8).erase i, d.getD j 0 * (9 - j)) + d.getD i 0 * (9 - i) := by
    unfold wsum
    rw [listRangeMapSum, ← Finset.sum_erase_add _ _ hmem]
  rw [e1, e2]
  ring

/-- If a single weighted digit changes (weight coprime to 11), the checksum
changes: the two residues mod 11 differ. -/
theorem checksum_ne {S T x e w : ℕ} (hw1 : 1 ≤ w) (hw2 : w ≤ 9)
    (hx : x < 11) (he : e < 11) (hne : e ≠ x)
    (heq : T + x * w = S + e * w) : T % 11 ≠ S % 11 := by
  intro hmod
  have hcast : (T : ZMod 11) = (S : ZMod 11) := by
    rw [ZMod.natCast_eq_natCast_iff']
    exact hmod
  have h2 : (T : ZMod 11) + (x : ZMod 11) * (w : ZMod 11)
      = (S : ZMod 11) + (e : ZMod 11) * (w : ZMod 11) := by
    have h0 := congrArg (fun n : ℕ => (n : ZMod 11)) heq
    push_cast at h0
    exact h0
  rw [hcast] at h2
  have h3 : (x : ZMod 11) * (w : ZMod 11) = (e : ZMod 11) * (w : ZMod 11) :=
    add_left_cancel h2
  have hw0 : (w : ZMod 11) ≠ 0 := by
    rw [Ne, ZMod.natCast_zmod_eq_zero_iff_dvd]
    intro hdvd
    have := Nat.le_of_dvd (by omega) hdvd
    omega
  haveI : Fact (Nat.Prime 11) := ⟨by norm_num⟩
  have h4 : (x : ZMod 11) = (e : ZMod 11) := mul_right_cancel₀ hw0 h3
  rw [ZMod.natCast_eq_natCast_iff', Nat.mod_eq_of_lt hx, Nat.mod_eq_of_lt he] at h4
  exact hne h4.symm

/-- Both checksum residue 1 and residue 10 demand check digit 1; these are
the only colliding pairs of `checkDigit`. -/
theorem checkDigit_collision : ∀ c < 11, ∀ c' < 11, c ≠ c' →
    (checkDigit c = checkDigit c' ↔ (c = 1 ∧ c' = 10) ∨ (c = 10 ∧ c' = 1)) := by
  decide

/-- Mutating one digit of a valid RSIN vector: the result passes the
validator exactly when a digit among the first eight moved the checksum
between residues 1 and 10. -/
theorem validate_rsin_mutation (d : List ℕ) (h9 : d.length = 9)
    (hd : ∀ x ∈ d, x < 10) (i : ℕ) (hi : i < 9) (e : ℕ) (he : e < 10)
    (hne : e ≠ d.getD i 0)
    (hv : validate_rsin_number (renderDigits d) = true) :
    (validate_rsin_number (renderDigits (d.set i e)) = true ↔
      i < 8 ∧ ((checksum8 d = 1 ∧ checksum8 (d.set i e) = 10)
             ∨ (checksum8 d = 10 ∧ checksum8 (d.set i e) = 1))) := by
  have hlen' : (d.set i e).length = 9 := by
    rw [List.length_set]
    exact h9
  have hd' : ∀ x ∈ d.set i e, x < 10 := by
    intro x hx
    rcases List.mem_or_eq_of_mem_set hx with h | h
    · exact hd x h
    · omega
  rw [validate_rsin_renderDigits d h9 hd, validateDigits, decide_eq_true_eq] at hv
  rw [validate_rsin_renderDigits _ hlen' hd', validateDigits, decide_eq_true_eq]
  have hc11 : checksum8 d < 11 := Nat.mod_lt _ (by omega)
  have hc11' : checksum8 (d.set i e) < 11 := Nat.mod_lt _ (by omega)
  by_cases h8 : i < 8
  · have hget8 : (d.set i e).getD 8 0 = d.getD 8 0 := getD_set_ne (by omega)
    have hxmem : d.getD i 0 ∈ d := by
      have hlt : i < d.length := by omega
      rw [List.getD_eq_getElem?_getD, List.getElem?_eq_getElem hlt]
      exact List.getElem_mem hlt
    have hcne : checksum8 (d.set i e) ≠ checksum8 d :=
      checksum_ne (by omega) (by omega) (by have := hd _ hxmem; omega) (by omega) hne
        (wsum_set_lt d i e h8 (by omega))
    rw [hget8, hv]
    rw [checkDigit_collision _ hc11 _ hc11' (Ne.symm hcne)]
    simp [h8]
  · have hieq : i = 8 := by omega
    subst hieq
    have hget8 : (d.set 8 e).getD 8 0 = e := getD_set_self (by omega)
    have hceq : checksum8 (d.set 8 e) = checksum8 d := by
      rw [checksum8, checksum8, wsum_set_ge d 8 e (le_refl 8)]
    rw [hget8, hceq]
    constructor
    · intro hcontra
      exfalso
      omega
    · intro hcontra
      exfalso
      omega

/-- The string validator equals the arithmetic validator on any 9-digit
string. -/
theorem validate_rsin_eq_validateDigits (s : Str) (h9 : s.length = 9)
    (hall : s.all Char.isDigit = true) :
    validate_rsin_number s = validateDigits (s.map fun c => c.toNat - 48) := by
  rw [validate_rsin_number, if_neg (by simp [h9, hall])]
  simp only [validateDigits, checksum8, checkDigit, wsum]
  rw [apply_ite (fun t => decide ((s.map fun c => c.toNat - 48).getD 8 0 = t))]

/-- **C1** (amended).  For every 9-digit string the Dutch RSIN validator
returns true iff the final digit equals the check digit derived from the
11-weighted checksum of the first eight digits (checksum when below 2, else
`11 - checksum`); any input that is not exactly 9 digits returns false; and
mutating a single digit of a valid vector makes the validator return false,
EXCEPT when a digit among the first eight is changed so that the checksum
moves between residues 1 and 10 (both demand check digit 1), in which case
the mutated vector is still accepted. -/
theorem C1_validate_rsin_amended :
    (∀ s : Str, s.length = 9 → s.all Char.isDigit = true →
      (validate_rsin_number s = true ↔
        (s.map fun c => c.toNat - 48).getD 8 0
          = checkDigit (checksum8 (s.map fun c => c.toNat - 48))))
    ∧ (∀ s : Str, s.length ≠ 9 ∨ ¬ s.all Char.isDigit = true →
        validate_rsin_number s = false)
    ∧ (∀ d : List ℕ, d.length = 9 → (∀ x ∈ d, x < 10) →
        ∀ i, i < 9 → ∀ e, e < 10 → e ≠ d.getD i 0 →
        validate_rsin_number (renderDigits d) = true →
        (validate_rsin_number (renderDigits (d.set i e)) = true ↔
          i < 8 ∧ ((checksum8 d = 1 ∧ checksum8 (d.set i e) = 10)
                 ∨ (checksum8 d = 10 ∧ checksum8 (d.set i e) = 1)))) := by
  refine ⟨?_, ?_, ?_⟩
  · intro s h9 hall
    rw [validate_rsin_eq_validateDigits s h9 hall, validateDigits, decide_eq_true_eq]
  · intro s hbad
    rw [validate_rsin_number, if_pos]
    rcases hbad with h | h
    · exact Or.inl h
    · exact Or.inr h
  · intro d h9 hd i hi e he hne hv
    exact validate_rsin_mutation d h9 hd i hi e he hne hv

/-- Witness for C1: a concrete instantiation of each conjunct; the vector
`000000061` is valid and mutating its first digit to `1` moves the checksum
from 1 to 10. -/
theorem C1_validate_rsin_amended_witness :
    (validate_rsin_number (String.toList "000000061") = true ↔
      ((String.toList "000000061").map fun c => c.toNat - 48).getD 8 0
        = checkDigit (checksum8 ((String.toList "000000061").map fun c => c.toNat - 48)))
    ∧ validate_rsin_number (String.toList "12345678") = false
    ∧ (validate_rsin_number (renderDigits ([0,0,0,0,0,0,0,6,1].set 0 1)) = true ↔
        0 < 8 ∧ ((checksum8 [0,0,0,0,0,0,0,6,1] = 1
                  ∧ checksum8 ([0,0,0,0,0,0,0,6,1].set 0 1) = 10)
               ∨ (checksum8 [0,0,0,0,0,0,0,6,1] = 10
                  ∧ checksum8 ([0,0,0,0,0,0,0,6,1].set 0 1) = 1))) :=
  ⟨C1_validate_rsin_amended.1 (String.toList "000000061") (by decide) (by decide),
   C1_validate_rsin_amended.2.1 (String.toList "12345678") (Or.inl (by decide)),
   C1_validate_rsin_amended.2.2 [0,0,0,0,0,0,0,6,1] (by decide) (by decide)
     0 (by decide) 1 (by decide) (by decide) (by decide)⟩

/-- **C1 counterexample**: the claim asserts that mutating any single digit
of a valid RSIN vector makes the validator return false; but `000000061` is
accepted, and so is `100000061`, obtained from it by changing only the first
digit. -/
theorem C1_mutation_counterexample :
    validate_rsin_number (String.toList "000000061") = true
    ∧ validate_rsin_number (String.toList "100000061") = true
    ∧ String.toList "100000061" = (String.toList "000000061").set 0 '1'
    ∧ (String.toList "000000061").getD 0 ' ' ≠ '1' := by
  decide

/-! ### Bounds on the matched total -/

theorem commonRun_le_left : ∀ xs ys : Str, commonRun xs ys ≤ xs.length
  | [], _ => by simp [commonRun]
  | _ :: _, [] => by simp [commonRun]
  | x :: xs, y :: ys => by
    rw [commonRun]
    split
    · simpa using commonRun_le_left xs ys
    · simp

theorem commonRun_le_right : ∀ xs ys : Str, commonRun xs ys ≤ ys.length
  | [], _ => by simp [commonRun]
  | _ :: _, [] => by simp [commonRun]
  | x :: xs, y :: ys => by
    rw [commonRun]
    split
    · simpa using commonRun_le_right xs ys
    · simp

theorem commonRun_self : ∀ xs : Str, commonRun xs xs = xs.length
  | [] => by simp [commonRun]
  | x :: xs => by
    rw [commonRun, if_pos rfl, commonRun_self xs]
    simp

theorem foldl_preserve {α β} {P : β → Prop} (step : β → α → β) :
    ∀ (l : List α) (init : β), P init →
      (∀ acc x, x ∈ l → P acc → P (step acc x)) → P (l.foldl step init)
  | [], _, h, _ => h
  | x :: xs, init, h, hstep => by
    rw [List.foldl_cons]
    exact foldl_preserve step xs (step init x)
      (hstep init x (List.mem_cons_self x xs) h)
      (fun acc y hy hacc => hstep acc y (List.mem_cons_of_mem x hy) hacc)

theorem mem_candPairs {alo ahi blo bhi : Nat} {p : Nat × Nat}
    (h : p ∈ candPairs alo ahi blo bhi) :
    alo ≤ p.1 ∧ p.1 < ahi ∧ blo ≤ p.2 ∧ p.2 < bhi := by
  rw [candPairs, List.mem_flatMap] at h
  obtain ⟨i, hi, hp⟩ := h
  rw [List.mem_map] at hp
  obtain ⟨j, hj, rfl⟩ := hp
  rw [List.mem_range'] at hi hj
  obtain ⟨ki, hki, rfl⟩ := hi
  obtain ⟨kj, hkj, rfl⟩ := hj
  refine ⟨by omega, by omega, by omega, by omega⟩

theorem blockLen_le_a (a b : Str) (ahi bhi : Nat) (p : Nat × Nat) :
    blockLen a b ahi bhi p ≤ ahi - p.1 := by
  calc blockLen a b ahi bhi p
      ≤ ((a.drop p.1).take (ahi - p.1)).length := commonRun_le_left _ _
    _ ≤ ahi - p.1 := by simp [List.length_take]

theorem blockLen_le_b (a b : Str) (ahi bhi : Nat) (p : Nat × Nat) :
    blockLen a b ahi bhi p ≤ bhi - p.2 := by
  calc blockLen a b ahi bhi p
      ≤ ((b.drop p.2).take (bhi - p.2)).length := commonRun_le_right _ _
    _ ≤ bhi - p.2 := by simp [List.length_take]

/-- The best block returned by the search lies inside the windows. -/
theorem findLongestMatch_inside (a b : Str) (alo ahi blo bhi : Nat)
    (ha : alo ≤ ahi) (hb : blo ≤ bhi) :
    alo ≤ (findLongestMatch a b alo ahi blo bhi).1
    ∧ blo ≤ (findLongestMatch a b alo ahi blo bhi).2.1
    ∧ (findLongestMatch a b alo ahi blo bhi).1
        + (findLongestMatch a b alo ahi blo bhi).2.2 ≤ ahi
    ∧ (findLongestMatch a b alo ahi blo bhi).2.1
        + (findLongestMatch a b alo ahi blo bhi).2.2 ≤ bhi := by
  unfold findLongestMatch
  apply foldl_preserve
    (P := fun best : Nat × Nat × Nat =>
      alo ≤ best.1 ∧ blo ≤ best.2.1 ∧ best.1 + best.2.2 ≤ ahi ∧ best.2.1 + best.2.2 ≤ bhi)
  · refine ⟨le_refl _, ?_, ?_, ?_⟩ <;> dsimp only <;> omega
  · intro acc p hp hacc
    rw [betterStep]
    split
    · have hmem := mem_candPairs hp
      have h1 := blockLen_le_a a b ahi bhi p
      have h2 := blockLen_le_b a b ahi bhi p
      refine ⟨?_, ?_, ?_, ?_⟩ <;> dsimp only <;> omega
    · exact hacc

theorem matchingBlocksAux_total_le (a b : Str) :
    ∀ (fuel alo ahi blo bhi : Nat), alo ≤ ahi → blo ≤ bhi →
      ((matchingBlocksAux a b fuel alo ahi blo bhi).map (fun m => m.2.2)).sum ≤ ahi - alo
      ∧ ((matchingBlocksAux a b fuel alo ahi blo bhi).map (fun m => m.2.2)).sum ≤ bhi - blo
  | 0, alo, ahi, blo, bhi, _, _ => by
    rw [matchingBlocksAux]
    simp
  | fuel + 1, alo, ahi, blo, bhi, ha, hb => by
    obtain ⟨h1, h2, h3, h4⟩ := findLongestMatch_inside a b alo ahi blo bhi ha hb
    rw [matchingBlocksAux]
    split
    · simp
    · rename_i hk
      have hL := matchingBlocksAux_total_le a b fuel alo
        (findLongestMatch a b alo ahi blo bhi).1 blo
        (findLongestMatch a b alo ahi blo bhi).2.1 h1 h2
      have hR := matchingBlocksAux_total_le a b fuel
        ((findLongestMatch a b alo ahi blo bhi).1 + (findLongestMatch a b alo ahi blo bhi).2.2)
        ahi
        ((findLongestMatch a b alo ahi blo bhi).2.1 + (findLongestMatch a b alo ahi blo bhi).2.2)
        bhi h3 h4
      simp only [List.map_append, List.sum_append, List.map_cons, List.sum_cons]
      constructor <;> omega

theorem totalMatched_le_left (a b : Str) : totalMatched a b ≤ a.length := by
  have h := matchingBlocksAux_total_le a b (a.length + b.length + 1) 0 a.length 0 b.length
    (by omega) (by omega)
  rw [totalMatched]
  omega

theorem totalMatched_le_right (a b : Str) : totalMatched a b ≤ b.length := by
  have h := matchingBlocksAux_total_le a b (a.length + b.length + 1) 0 a.length 0 b.length
    (by omega) (by omega)
  rw [totalMatched]
  omega

theorem ratioVal_nonneg (a b : Str) : 0 ≤ ratioVal a b := by
  rw [ratioVal]
  split
  · norm_num
  · positivity

theorem ratioVal_le_one (a b : Str) : ratioVal a b ≤ 1 := by
  rw [ratioVal]
  split
  · norm_num
  · rename_i h
    have hM1 := totalMatched_le_left a b
    have hM2 := totalMatched_le_right a b
    have hpos : (0 : ℚ) < (a.length : ℚ) + (b.length : ℚ) := by
      have : 0 < a.length + b.length := by omega
      exact_mod_cast this
    rw [div_le_one hpos]
    have h2 : 2 * totalMatched a b ≤ a.length + b.length := by omega
    exact_mod_cast h2

theorem foldl_betterStep_stay (cand : Nat × Nat → Nat) :
    ∀ (l : List (Nat × Nat)) (best : Nat × Nat × Nat),
      (∀ p ∈ l, cand p ≤ best.2.2) → l.foldl (betterStep cand) best = best
  | [], _, _ => rfl
  | p :: ps, best, h => by
    rw [List.foldl_cons, betterStep,
      if_neg (by have := h p (List.mem_cons_self p ps); omega)]
    exact foldl_betterStep_stay cand ps best (fun q hq => h q (List.mem_cons_of_mem p hq))

/-- On a string matched against itself, the whole string is the best block
(it is maximal, and starts earliest in both windows). -/
theorem findLongestMatch_self (s : Str) (h : 0 < s.length) :
    findLongestMatch s s 0 s.length 0 s.length = (0, 0, s.length) := by
  obtain ⟨k, hk⟩ : ∃ k, s.length = k + 1 := ⟨s.length - 1, by omega⟩
  have hblock : blockLen s s s.length s.length (0, 0) = s.length := by
    rw [blockLen]
    dsimp only
    rw [Nat.sub_zero, List.drop_zero, List.take_length]
    exact commonRun_self s
  have hbound : ∀ p : Nat × Nat, blockLen s s s.length s.length p ≤ s.length := by
    intro p
    have := blockLen_le_a s s s.length s.length p
    omega
  rw [findLongestMatch, candPairs]
  simp only [Nat.sub_zero]
  rw [hk] at hblock hbound ⊢
  rw [List.range'_succ, List.flatMap_cons]
  rw [List.map_cons, List.cons_append, List.foldl_cons, betterStep, hblock,
    if_pos (by dsimp only; omega)]
  dsimp only
  exact foldl_betterStep_stay _ _ _ (fun p _ => hbound p)

theorem matchingBlocksAux_empty (a b : Str) (fuel x y : Nat) :
    matchingBlocksAux a b fuel x x y y = [] := by
  cases fuel with
  | zero => rfl
  | succ f =>
    have hfind : findLongestMatch a b x x y y = (x, y, 0) := by
      rw [findLongestMatch, candPairs]
      simp
    rw [matchingBlocksAux]
    rw [hfind]
    simp

theorem totalMatched_self (s : Str) : totalMatched s s = s.length := by
  rcases Nat.eq_zero_or_pos s.length with h0 | hpos
  · rw [totalMatched, h0]
    rw [show (0 : Nat) + 0 + 1 = 1 from rfl]
    rw [matchingBlocksAux_empty]
    simp [h0]
  · rw [totalMatched]
    rw [show s.length + s.length + 1 = (s.length + s.length) + 1 from rfl]
    rw [matchingBlocksAux]
    rw [findLongestMatch_self s hpos]
    dsimp only
    rw [if_neg (by omega)]
    simp only [Nat.zero_add, matchingBlocksAux_empty]
    simp

theorem ratioVal_self (s : Str) : ratioVal s s = 1 := by
  rw [ratioVal]
  split
  · rfl
  · rename_i h
    rw [totalMatched_self]
    have hne : (s.length : ℚ) ≠ 0 := by
      have : s.length ≠ 0 := by omega
      exact_mod_cast this
    field_simp
    ring

/-- Helper: `similarity a a = 1` for non-empty `a`. -/
theorem similarity_self (a : Str) (ha : a ≠ []) : similarity a a = 1 := by
  rw [similarity, if_neg (by simp [ha]), ratioVal_self]

/-- Helper: two non-empty strings with the same normalization have
similarity 1. -/
theorem similarity_eq_one_of_normalize_eq (a b : Str) (ha : a ≠ []) (hb : b ≠ [])
    (h : normalize a = normalize b) : similarity a b = 1 := by
  rw [similarity, if_neg (by simp [ha, hb]), h, ratioVal_self]

/-- **C8**.  The similarity scorer returns a value in [0,1], with
`similarity a a = 1` for every non-empty `a`, `similarity "" x = 0` for
every non-empty `x`, and `similarity "Acme GmbH" "ACME GMBH" > 0.9`
(case/punctuation insensitivity after normalization). -/
theorem C8_similarity_properties :
    (∀ a b : Str, 0 ≤ similarity a b ∧ similarity a b ≤ 1)
    ∧ (∀ a : Str, a ≠ [] → similarity a a = 1)
    ∧ (∀ x : Str, x ≠ [] → similarity [] x = 0)
    ∧ similarity (String.toList "Acme GmbH") (String.toList "ACME GMBH") > 9 / 10 := by
  refine ⟨?_, ?_, ?_, ?_⟩
  · intro a b
    rw [similarity]
    split
    · norm_num
    · exact ⟨ratioVal_nonneg _ _, ratioVal_le_one _ _⟩
  · intro a ha
    exact similarity_self a ha
  · intro x hx
    rw [similarity, if_pos (Or.inl rfl)]
  · rw [similarity_eq_one_of_normalize_eq _ _ (by decide) (by decide) (by decide)]
    norm_num

/-- Witness for C8 at concrete inputs. -/
theorem C8_similarity_properties_witness :
    (0 ≤ similarity (String.toList "ab") (String.toList "cd")
      ∧ similarity (String.toList "ab") (String.toList "cd") ≤ 1)
    ∧ similarity (String.toList "Acme") (String.toList "Acme") = 1
    ∧ similarity [] (String.toList "x") = 0 :=
  ⟨C8_similarity_properties.1 _ _,
   C8_similarity_properties.2.1 _ (by decide),
   C8_similarity_properties.2.2.1 _ (by decide)⟩

/-! ### Properties of the dedup and ranking stages -/

theorem updateCand_mem (e : Cand) :
    ∀ (l : List Cand) (x : Cand), x ∈ updateCand e l → x.text = e.text ∨ x ∈ l
  | [], x, hx => by
    rw [updateCand, List.mem_singleton] at hx
    exact Or.inl (by rw [hx])
  | y :: ys, x, hx => by
    rw [updateCand] at hx
    split at hx
    · split at hx <;> rw [List.mem_cons] at hx <;> rcases hx with h | h
      · exact Or.inl (by rw [h]; assumption)
      · exact Or.inr (List.mem_cons_of_mem y h)
      · exact Or.inr (by rw [h]; exact List.mem_cons_self y ys)
      · exact Or.inr (List.mem_cons_of_mem y h)
    · rw [List.mem_cons] at hx
      rcases hx with h | h
      · exact Or.inr (by rw [h]; exact List.mem_cons_self y ys)
      · rcases updateCand_mem e ys x h with h' | h'
        · exact Or.inl h'
        · exact Or.inr (List.mem_cons_of_mem y h')

theorem updateCand_pairwise (e : Cand) :
    ∀ l : List Cand, l.Pairwise (fun x y => x.text ≠ y.text) →
      (updateCand e l).Pairwise (fun x y => x.text ≠ y.text)
  | [], _ => List.Pairwise.cons (by simp) List.Pairwise.nil
  | y :: ys, h => by
    rw [List.pairwise_cons] at h
    rw [updateCand]
    split
    · rename_i hty
      split
      · exact List.Pairwise.cons (fun z hz => h.1 z hz) h.2
      · exact List.Pairwise.cons h.1 h.2
    · rename_i hty
      refine List.Pairwise.cons ?_ (updateCand_pairwise e ys h.2)
      intro z hz
      rcases updateCand_mem e ys z hz with h' | h'
      · rw [h']
        exact hty
      · exact h.1 z h'

theorem dedupByName_pairwise (l : List Cand) :
    (dedupByName l).Pairwise (fun x y => x.text ≠ y.text) := by
  rw [dedupByName]
  apply foldl_preserve
  · exact List.Pairwise.nil
  · intro acc x _ hacc
    exact updateCand_pairwise x acc hacc

theorem insertDesc_perm (x : Cand) : ∀ l : List Cand, (insertDesc x l).Perm (x :: l)
  | [] => List.Perm.refl _
  | y :: ys => by
    rw [insertDesc]
    split
    · exact ((insertDesc_perm x ys).cons y).trans (List.Perm.swap x y ys)
    · exact List.Perm.refl _

theorem insertDesc_mem (x : Cand) (l : List Cand) (a : Cand)
    (ha : a ∈ insertDesc x l) : a = x ∨ a ∈ l :=
  List.mem_cons.mp ((insertDesc_perm x l).mem_iff.mp ha)

theorem insertDesc_pairwise (g : Cand → Nat) (x : Cand) :
    ∀ l : List Cand, l.Pairwise (lexLt g) → (∀ a ∈ l, g a < g x) →
      (insertDesc x l).Pairwise (lexLt g)
  | [], _, _ => List.Pairwise.cons (by simp) List.Pairwise.nil
  | y :: ys, h, hg => by
    rw [List.pairwise_cons] at h
    rw [insertDesc]
    split
    · rename_i hle
      refine List.Pairwise.cons ?_
        (insertDesc_pairwise g x ys h.2 (fun a ha => hg a (List.mem_cons_of_mem y ha)))
      intro z hz
      rcases insertDesc_mem x ys z hz with rfl | hz'
      · rcases lt_or_eq_of_le hle with hlt | heq
        · exact Or.inl hlt
        · exact Or.inr ⟨heq.symm, hg y (List.mem_cons_self y ys)⟩
      · exact h.1 z hz'
    · rename_i hgt
      push_neg at hgt
      refine List.Pairwise.cons ?_ (List.pairwise_cons.mpr h)
      intro z hz
      rcases List.mem_cons.mp hz with rfl | hz'
      · exact Or.inl hgt
      · rcases h.1 z hz' with hlt | ⟨heq, _⟩
        · exact Or.inl (hlt.trans hgt)
        · exact Or.inl (heq ▸ hgt)

theorem sortFold_perm : ∀ (l acc : List Cand),
    (l.foldl (fun a x => insertDesc x a) acc).Perm (l ++ acc)
  | [], acc => List.Perm.refl _
  | x :: t, acc => by
    rw [List.foldl_cons]
    refine (sortFold_perm t (insertDesc x acc)).trans ?_
    refine ((insertDesc_perm x acc).append_left t).trans ?_
    exact List.perm_middle

theorem sortFold_pairwise (g : Cand → Nat) : ∀ (l acc : List Cand),
    acc.Pairwise (lexLt g) → (∀ a ∈ acc, ∀ b ∈ l, g a < g b) →
    l.Pairwise (fun a b => g a < g b) →
    (l.foldl (fun a x => insertDesc x a) acc).Pairwise (lexLt g)
  | [], acc, hacc, _, _ => hacc
  | x :: t, acc, hacc, hcross, hl => by
    rw [List.foldl_cons]
    rw [List.pairwise_cons] at hl
    refine sortFold_pairwise g t (insertDesc x acc) ?_ ?_ hl.2
    · exact insertDesc_pairwise g x acc hacc
        (fun a ha => hcross a ha x (List.mem_cons_self x t))
    · intro a ha b hb
      rcases insertDesc_mem x acc a ha with rfl | ha'
      · exact hl.1 b hb
      · exact hcross a ha' b (List.mem_cons_of_mem x hb)

theorem nodup_pairwise_indexOf {α} [DecidableEq α] :
    ∀ l : List α, l.Nodup → l.Pairwise (fun a b => l.indexOf a < l.indexOf b)
  | [], _ => List.Pairwise.nil
  | x :: t, h => by
    rw [List.nodup_cons] at h
    refine List.Pairwise.cons ?_ ?_
    · intro b hb
      have hxb : x ≠ b := by
        intro he
        rw [he] at h
        exact h.1 hb
      rw [List.indexOf_cons_self, List.indexOf_cons_ne _ hxb]
      omega
    · have ih := nodup_pairwise_indexOf t h.2
      refine ih.imp_of_mem ?_
      intro a b ha hb hab
      have hxa : x ≠ a := by
        intro he
        rw [he] at h
        exact h.1 ha
      have hxb : x ≠ b := by
        intro he
        rw [he] at h
        exact h.1 hb
      rw [List.indexOf_cons_ne _ hxa, List.indexOf_cons_ne _ hxb]
      omega

/-- **C3** (amended).  For every document and query name, the legal-name
extractor returns candidates deduplicated by exact text and ordered by
similarity-to-query descending, with ties between equal-similarity
candidates broken by DOCUMENT-SCAN order — title, then meta, then
structured data, then headers, then footer/copyright, then generic text —
i.e. by first-occurrence position in `found_names` (the stable sort keeps
insertion order on equal keys), NOT by a structured-data-first priority. -/
theorem C3_legal_name_ranking (doc : SoupDoc) (q : Str) :
    extract_legal_name_from_website doc q
      = ((sortBySimDesc (dedupByName (foundNames doc q))).take 5).map
          (fun e => (e.text, e.src))
    ∧ (dedupByName (foundNames doc q)).Pairwise (fun x y => x.text ≠ y.text)
    ∧ (sortBySimDesc (dedupByName (foundNames doc q))).Perm
        (dedupByName (foundNames doc q))
    ∧ (sortBySimDesc (dedupByName (foundNames doc q))).Pairwise
        (fun x y => y.sim < x.sim ∨ (x.sim = y.sim
          ∧ (dedupByName (foundNames doc q)).indexOf x
              < (dedupByName (foundNames doc q)).indexOf y)) := by
  have hdedup := dedupByName_pairwise (foundNames doc q)
  have hnodup : (dedupByName (foundNames doc q)).Nodup := by
    refine hdedup.imp ?_
    intro a b hne heq
    rw [heq] at hne
    exact hne rfl
  have hidx := nodup_pairwise_indexOf (dedupByName (foundNames doc q)) hnodup
  refine ⟨rfl, hdedup, ?_, ?_⟩
  · rw [sortBySimDesc]
    have h := sortFold_perm (dedupByName (foundNames doc q)) []
    rw [List.append_nil] at h
    exact h
  · rw [sortBySimDesc]
    exact sortFold_pairwise (fun a => (dedupByName (foundNames doc q)).indexOf a)
      (dedupByName (foundNames doc q)) [] List.Pairwise.nil (by simp) hidx

/-- **C3 counterexample**: both candidates have the same similarity 1 to the
query "Acme BV", yet the extractor returns the title candidate BEFORE the
structured-data candidate — the claimed structured-data-over-title tie-break
does not hold. -/
theorem C3_tie_break_counterexample :
    extract_legal_name_from_website docC3 (String.toList "Acme BV")
      = [(String.toList "Acme BV", String.toList "title"),
         (String.toList "ACME BV", String.toList "json-ld:legalName")]
    ∧ similarity (String.toList "Acme BV") (String.toList "Acme BV")
        = similarity (String.toList "ACME BV") (String.toList "Acme BV") := by
  have hs1 : similarity (String.toList "Acme BV") (String.toList "Acme BV") = 1 :=
    similarity_self _ (by decide)
  have hs2 : similarity (String.toList "ACME BV") (String.toList "Acme BV") = 1 :=
    similarity_eq_one_of_normalize_eq _ _ (by decide) (by decide) (by decide)
  have hclean : cleanName (String.toList "Acme BV") = String.toList "Acme BV" := by decide
  have hpw1 : passesWindow (String.toList "Acme BV") (String.toList "Acme BV") = true := by
    simp only [passesWindow, decide_eq_true_eq]
    refine ⟨by decide, by decide, ?_⟩
    rw [hs1]
    norm_num
  have hpw2 : passesWindow (String.toList "Acme BV") (String.toList "ACME BV") = true := by
    simp only [passesWindow, decide_eq_true_eq]
    refine ⟨by decide, by decide, ?_⟩
    rw [hs2]
    norm_num
  have hfound : foundNames docC3 (String.toList "Acme BV")
      = [⟨String.toList "Acme BV", String.toList "title", 1⟩,
         ⟨String.toList "ACME BV", String.toList "json-ld:legalName", 1⟩] := by
    rw [foundNames]
    simp only [docC3, titleCands, metaCands, jsonLdCands, headerCands, copyrightCands,
      textCands, List.filterMap_cons, List.filterMap_nil, hclean, hpw1, hpw2, if_true,
      hs1, hs2, List.append_nil, List.nil_append]
    rfl
  refine ⟨?_, by rw [hs1, hs2]⟩
  rw [extract_legal_name_from_website, hfound]
  have hded : dedupByName
      [⟨String.toList "Acme BV", String.toList "title", (1 : ℚ)⟩,
       ⟨String.toList "ACME BV", String.toList "json-ld:legalName", (1 : ℚ)⟩]
      = [⟨String.toList "Acme BV", String.toList "title", (1 : ℚ)⟩,
         ⟨String.toList "ACME BV", String.toList "json-ld:legalName", (1 : ℚ)⟩] := by
    rw [dedupByName, List.foldl_cons, List.foldl_cons, List.foldl_nil]
    rw [updateCand, updateCand, if_neg (by decide), updateCand]
  have hsort : sortBySimDesc
      [⟨String.toList "Acme BV", String.toList "title", (1 : ℚ)⟩,
       ⟨String.toList "ACME BV", String.toList "json-ld:legalName", (1 : ℚ)⟩]
      = [⟨String.toList "Acme BV", String.toList "title", (1 : ℚ)⟩,
         ⟨String.toList "ACME BV", String.toList "json-ld:legalName", (1 : ℚ)⟩] := by
    rw [sortBySimDesc, List.foldl_cons, List.foldl_cons, List.foldl_nil]
    rw [insertDesc, insertDesc, if_pos (le_refl (1 : ℚ)), insertDesc]
  rw [hded, hsort]
  rfl

/-! ## Claim theorems for the orchestrator, fetch layer and extractors -/

/-- **C5**.  For every query whose country code is not among the nine
supported codes, `process_single_company` returns the unsupported-country
outcome immediately: no extractor runs, hence zero fetch calls (the fetch
counter is unchanged) and no exception — for every extractor behaviour. -/
theorem C5_unsupported_country (ext : Extractors) (name website code : Str) (s : Nat)
    (h : code ∉ supportedCodes) :
    (process_single_company ext name website code).run s
      = Except.ok
          ({ company_name := name
             website := website
             country := lookupCountry code
             status := String.toList "Country not supported" }, s) := by
  rw [process_single_company, if_neg h]
  rfl

/-- Witness for C5: country code `ES`. -/
theorem C5_unsupported_country_witness :
    (process_single_company extBoom (String.toList "Musterfirma")
        (String.toList "https://example.es") (String.toList "ES")).run 0
      = Except.ok
          ({ company_name := String.toList "Musterfirma"
             website := String.toList "https://example.es"
             country := lookupCountry (String.toList "ES")
             status := String.toList "Country not supported" }, 0) :=
  C5_unsupported_country extBoom _ _ _ 0 (by decide)

/-- **C4 counterexample**: the multi-country batch loop has no try/except —
a strategy failure on the first query propagates and aborts the whole
batch; the result is the exception, not a list containing a status-Error
outcome for the first query and an unaffected sibling outcome. -/
theorem C4_batch_abort_counterexample :
    (process_company_list extBoom [rowAlpha, rowBeta]).run 0
      = Except.error (String.toList "boom") := rfl

/-- **C4** (amended).  The multi-country orchestrator loop does NOT catch
strategy failures (see the counterexample); the catch sits inside the
per-company resolution of the standalone Dutch pipeline: sibling
resolutions are independent (the batch is a per-row map), and any failure
raised by a step inside one resolution is converted there into
`status = "error"` with the raised message preserved. -/
theorem C4_error_boundary_amended :
    (∀ (O : NLOracle) (cs : List (Str × Str)) (i : Nat),
        (process_dutch_companies O cs).length = cs.length
        ∧ (process_dutch_companies O cs)[i]?
            = (cs[i]?).map (fun c => process_single_dutch_company O c.1 c.2))
    ∧ (∀ (O : NLOracle) (name web m : Str) (r : NLResult) (tr : List NLTag),
        nlSteps O name (normWebsite web) (nlInit name (normWebsite web))
          = Except.error (m, r, tr) →
        (process_single_dutch_company O name web).1.status = String.toList "error"
        ∧ (process_single_dutch_company O name web).1.error = some m
        ∧ (process_single_dutch_company O name web).2 = tr) := by
  constructor
  · intro O cs i
    exact ⟨List.length_map _ _, List.getElem?_map _ _ _⟩
  · intro O name web m r tr h
    rw [process_single_dutch_company]
    rw [h]
    exact ⟨rfl, rfl, rfl⟩

/-- Witness for the amended C4. -/
theorem C4_error_boundary_amended_witness :
    ((process_dutch_companies nlOracleBoom [(String.toList "Acme", [])]).length
        = [(String.toList "Acme", ([] : Str))].length
      ∧ (process_dutch_companies nlOracleBoom [(String.toList "Acme", [])])[0]?
          = ([(String.toList "Acme", ([] : Str))][0]?).map
              (fun c => process_single_dutch_company nlOracleBoom c.1 c.2))
    ∧ ((process_single_dutch_company nlOracleBoom (String.toList "Acme") []).1.status
          = String.toList "error"
        ∧ (process_single_dutch_company nlOracleBoom (String.toList "Acme") []).1.error
          = some (String.toList "KvK register down")
        ∧ (process_single_dutch_company nlOracleBoom (String.toList "Acme") []).2
          = [NLTag.kvkSearch (String.toList "Acme")]) :=
  ⟨C4_error_boundary_amended.1 nlOracleBoom _ 0,
   C4_error_boundary_amended.2 nlOracleBoom (String.toList "Acme") [] _ _ _ rfl⟩

/-- **C6** (amended).  The page-acquisition functions never raise on
transport failures: a `RequestException` from the GET (timeout, connection
error) yields None, a 4xx/5xx response yields None via `raise_for_status`,
and the rendered fetch never raises at all.  But a non-2xx response BELOW
400 (e.g. a 304 with an HTML content type) is NOT treated as a failure:
its body is returned, so "every non-2xx response yields None" does not
hold as stated. -/
theorem C6_fetch_soft_failure :
    (∀ (net : NetOracle) (url : Str),
        (∀ m, net url ≠ Except.error (PyErr.otherExc m)) →
        ∃ v, fetch_with_requests net url = Except.ok v)
    ∧ (∀ (net : NetOracle) (url m : Str),
        net url = Except.error (PyErr.requestExc m) →
        fetch_with_requests net url = Except.ok none)
    ∧ (∀ (net : NetOracle) (url : Str) (r : HttpResp),
        net url = Except.ok r → 400 ≤ r.status → r.status < 600 →
        fetch_with_requests net url = Except.ok none)
    ∧ (∀ (driver : Option DriverOracle) (url : Str),
        ∃ v, fetch_with_selenium driver url = Except.ok v) := by
  refine ⟨?_, ?_, ?_, ?_⟩
  · intro net url hno
    rcases hnet : net url with err | resp
    · cases err with
      | requestExc m =>
        refine ⟨none, ?_⟩
        unfold fetch_with_requests
        rw [hnet]
      | otherExc m => exact absurd hnet (hno m)
    · by_cases h45 : 400 ≤ resp.status ∧ resp.status < 600
      · refine ⟨none, ?_⟩
        unfold fetch_with_requests
        rw [hnet]
        dsimp only
        unfold raise_for_status
        rw [if_pos h45]
      · by_cases hct : (containsCI resp.contentType (String.toList "html") = true)
            ∨ (containsCI resp.contentType (String.toList "xml") = true)
        · refine ⟨some resp.text, ?_⟩
          unfold fetch_with_requests
          rw [hnet]
          dsimp only
          unfold raise_for_status
          rw [if_neg h45]
          dsimp only
          rw [if_pos hct]
        · refine ⟨none, ?_⟩
          unfold fetch_with_requests
          rw [hnet]
          dsimp only
          unfold raise_for_status
          rw [if_neg h45]
          dsimp only
          rw [if_neg hct]
  · intro net url m h
    unfold fetch_with_requests
    rw [h]
  · intro net url r h h4 h6
    unfold fetch_with_requests
    rw [h]
    dsimp only
    unfold raise_for_status
    rw [if_pos (And.intro h4 h6)]
  · intro driver url
    unfold fetch_with_selenium
    match driver with
    | none => exact ⟨none, rfl⟩
    | some d =>
      rcases hd : d url with err | s
      · refine ⟨none, ?_⟩
        dsimp only
        rw [hd]
      · refine ⟨some s, ?_⟩
        dsimp only
        rw [hd]

/-- Witness for the amended C6. -/
theorem C6_fetch_soft_failure_witness :
    (∃ v, fetch_with_requests netOk (String.toList "https://a.nl") = Except.ok v)
    ∧ fetch_with_requests netTimeout (String.toList "https://a.nl") = Except.ok none
    ∧ fetch_with_requests net500 (String.toList "https://a.nl") = Except.ok none
    ∧ (∃ v, fetch_with_selenium none (String.toList "https://a.nl") = Except.ok v) :=
  ⟨C6_fetch_soft_failure.1 netOk _ (fun m => by simp [netOk]),
   C6_fetch_soft_failure.2.1 netTimeout _ (String.toList "ReadTimeout") rfl,
   C6_fetch_soft_failure.2.2.1 net500 _ _ rfl (by decide) (by decide),
   C6_fetch_soft_failure.2.2.2 none _⟩

/-- **C6 counterexample**: a 304 response (non-2xx) with an HTML content
type is returned as text, not degraded to None — `raise_for_status` only
raises for 4xx/5xx. -/
theorem C6_non2xx_counterexample :
    fetch_with_requests net304 (String.toList "https://a.nl")
      = Except.ok (some (String.toList "cached page"))
    ∧ ¬ (200 ≤ 304 ∧ 304 < 300) := by
  exact ⟨rfl, by decide⟩

/-- **C2**: the multi-country Dutch extractor surfaces the leading-zero
KvK number `01234567` with status Found — the leading-zero rule of the
original validator (`validate_kvk_number`, which rejects it) is absent
from `extract_kvk_from_html` of the multi-country file. -/
theorem C2_leading_zero_kvk_surfaced :
    (MC_NL_process_company netC2 (String.toList "Acme")
        (some (String.toList "https://acme.nl"))).kvk
      = some (String.toList "01234567")
    ∧ (MC_NL_process_company netC2 (String.toList "Acme")
        (some (String.toList "https://acme.nl"))).status
      = String.toList "Found"
    ∧ validate_kvk_number (String.toList "01234567") = false
    ∧ MC_extract_kvk_from_html (String.toList "KvK: 01234567")
      = some (String.toList "01234567") := by
  refine ⟨rfl, rfl, by decide, rfl⟩

/-- **C10**.  When the Companies House registry search and the
company-website scrape both yield a company number, the website value
overwrites the registry value in the final outcome. -/
theorem C10_website_overwrites_registry (chSearch : Str → Option Str)
    (net : NetOracle) (name url ct html n w : Str)
    (hch : chSearch name = some n) (hn : n ≠ [])
    (hurl : url ≠ [])
    (hnet : net url = Except.ok ⟨200, ct, html⟩)
    (hw : extract_company_number_from_html html = some w) (hwne : w ≠ []) :
    (UK_process_company chSearch net name (some url)).company_number = some w
    ∧ (UK_process_company chSearch net name (some url)).status
        = String.toList "Found" := by
  rw [UK_process_company]
  simp only [hch, hnet, hw, Option.getD_some]
  rw [if_pos (by simp [truthy, hurl])]
  simp only [truthy, hn, decide_eq_true_eq, if_true]
  rw [if_pos hwne]
  exact ⟨rfl, rfl⟩

/-- Witness for C10: the registry finds 87654321, the website states
12345678; the outcome carries 12345678. -/
theorem C10_website_overwrites_registry_witness :
    (UK_process_company chSearchC10 netC10 (String.toList "Gamma Ltd")
        (some (String.toList "https://gamma.co.uk"))).company_number
      = some (String.toList "12345678")
    ∧ (UK_process_company chSearchC10 netC10 (String.toList "Gamma Ltd")
        (some (String.toList "https://gamma.co.uk"))).status
      = String.toList "Found" :=
  C10_website_overwrites_registry chSearchC10 netC10 _ _ (String.toList "text/html") _
    (String.toList "87654321") (String.toList "12345678") rfl (by decide) (by decide)
    rfl rfl (by decide)

/-! ## Trace lemmas for the Dutch pipeline -/

/-- Traces added by the Step-3 loop consist of register-search tags only. -/
theorem tryKvkNames_trace (O : NLOracle) :
    ∀ (lns : List (Str × Str)) (r : NLResult) (tr : List NLTag)
      (res : Option NLResult) (tr' : List NLTag),
      tryKvkNames O lns r tr = Except.ok (res, tr') →
      ∃ pre, tr' = tr ++ pre ∧ ∀ t ∈ pre, ∃ n, t = NLTag.kvkSearch n
  | [], r, tr, res, tr', h => by
    rw [tryKvkNames] at h
    simp only [Except.ok.injEq, Prod.mk.injEq] at h
    obtain ⟨h1, h2⟩ := h
    subst h2
    exact ⟨[], (List.append_nil tr).symm, by simp⟩
  | (ln, src) :: rest, r, tr, res, tr', h => by
    rw [tryKvkNames] at h
    cases hk : O.kvkSearch ln with
    | error m =>
      rw [hk] at h
      simp at h
    | ok p =>
      obtain ⟨kn, kl⟩ := p
      rw [hk] at h
      dsimp only at h
      by_cases hkn : truthy kn = true
      · rw [if_pos hkn] at h
        simp only [Except.ok.injEq, Prod.mk.injEq] at h
        obtain ⟨h1, h2⟩ := h
        subst h2
        refine ⟨[NLTag.kvkSearch ln], rfl, ?_⟩
        intro t ht
        rw [List.mem_singleton] at ht
        exact ⟨ln, ht⟩
      · rw [if_neg hkn] at h
        obtain ⟨pre, hpre, hall⟩ :=
          tryKvkNames_trace O rest r (tr ++ [NLTag.kvkSearch ln]) res tr' h
        refine ⟨NLTag.kvkSearch ln :: pre, ?_, ?_⟩
        · rw [hpre, List.append_assoc]
          rfl
        · intro t ht
          rcases List.mem_cons.mp ht with rfl | ht'
          · exact ⟨ln, rfl⟩
          · exact hall t ht'

/-- On a raised exception, the Step-3 loop reports the result dict it was
given. -/
theorem tryKvkNames_err (O : NLOracle) :
    ∀ (lns : List (Str × Str)) (r : NLResult) (tr : List NLTag)
      (m : Str) (r' : NLResult) (tr' : List NLTag),
      tryKvkNames O lns r tr = Except.error (m, r', tr') → r' = r
  | [], r, tr, m, r', tr', h => by
    rw [tryKvkNames] at h
    simp at h
  | (ln, src) :: rest, r, tr, m, r', tr', h => by
    rw [tryKvkNames] at h
    cases hk : O.kvkSearch ln with
    | error m0 =>
      rw [hk] at h
      simp only [Except.error.injEq, Prod.mk.injEq] at h
      exact h.2.1.symm
    | ok p =>
      obtain ⟨kn, kl⟩ := p
      rw [hk] at h
      dsimp only at h
      by_cases hkn : truthy kn = true
      · rw [if_pos hkn] at h
        simp at h
      · rw [if_neg hkn] at h
        exact tryKvkNames_err O rest r (tr ++ [NLTag.kvkSearch ln]) m r' tr' h

/-- On a raised exception, the Step-4 loop reports the result dict it was
given. -/
theorem tryLeiNames_err (O : NLOracle) :
    ∀ (lns : List (Str × Str)) (r : NLResult) (tr : List NLTag)
      (m : Str) (r' : NLResult) (tr' : List NLTag),
      tryLeiNames O lns r tr = Except.error (m, r', tr') → r' = r
  | [], r, tr, m, r', tr', h => by
    rw [tryLeiNames] at h
    simp at h
  | (ln, src) :: rest, r, tr, m, r', tr', h => by
    rw [tryLeiNames] at h
    cases hk : O.leiLookup ln with
    | error m0 =>
      rw [hk] at h
      simp only [Except.error.injEq, Prod.mk.injEq] at h
      exact h.2.1.symm
    | ok p =>
      obtain ⟨lc, lname⟩ := p
      rw [hk] at h
      dsimp only at h
      by_cases hlc : truthy lc = true
      · rw [if_pos hlc] at h
        simp at h
      · rw [if_neg hlc] at h
        exact tryLeiNames_err O rest r (tr ++ [NLTag.leiLookup ln]) m r' tr' h

/-- The intermediate result dict of Step 2 keeps the `search_location` of
the initial dict. -/
theorem nlR2_location (r0 : NLResult) (lns : List (Str × Str)) (codes : NLCodes) :
    ({ (match lns with
        | [] => r0
        | (n, src) :: _ => { r0 with legal_name_website := n, legal_name_source := src }) with
       kvk_number := codes.kvk
       rsin := codes.rsin
       lei := codes.lei
       btw := codes.btw } : NLResult).search_location = r0.search_location := by
  match lns with
  | [] => rfl
  | (n, src) :: _ => rfl

/-- The result dict carried by a raised exception has the
`search_location` of the initial dict: only the early returns stamp a
location. -/
theorem nlSteps_err_location (O : NLOracle) (name website : Str) (r0 : NLResult)
    (m : Str) (r : NLResult) (tr : List NLTag)
    (h : nlSteps O name website r0 = Except.error (m, r, tr)) :
    r.search_location = r0.search_location := by
  rw [nlSteps] at h
  cases hk : O.kvkSearch name with
  | error m0 =>
    rw [hk] at h
    simp only [Except.error.injEq, Prod.mk.injEq] at h
    rw [← h.2.1]
  | ok p =>
    obtain ⟨kn, kl⟩ := p
    rw [hk] at h
    dsimp only at h
    by_cases hb : truthy kn = true ∧ truthy kl = true
    · rw [if_pos hb] at h
      simp at h
    · rw [if_neg hb] at h
      by_cases hw : website = []
      · rw [if_pos hw] at h
        simp at h
      · rw [if_neg hw] at h
        cases hwi : O.websiteInfo website name with
        | error m1 =>
          rw [hwi] at h
          simp only [Except.error.injEq, Prod.mk.injEq] at h
          rw [← h.2.1]
        | ok q =>
          obtain ⟨lns, codes⟩ := q
          rw [hwi] at h
          dsimp only at h
          by_cases hck : truthy codes.kvk = true
          · rw [if_pos hck] at h
            simp at h
          · rw [if_neg hck] at h
            cases hE : (if lns ≠ [] then tryKvkNames O (lns.take 3)
                { (match lns with
                   | [] => r0
                   | (n, src) :: _ =>
                     { r0 with legal_name_website := n, legal_name_source := src }) with
                  kvk_number := codes.kvk
                  rsin := codes.rsin
                  lei := codes.lei
                  btw := codes.btw }
                ([NLTag.kvkSearch name] ++ [NLTag.websiteInfo website name])
              else Except.ok (none, [NLTag.kvkSearch name]
                ++ [NLTag.websiteInfo website name])) with
            | error e =>
              rw [hE] at h
              dsimp only at h
              obtain ⟨me, re, tre⟩ := e
              simp only [Except.error.injEq, Prod.mk.injEq] at h
              by_cases hlns : lns ≠ []
              · rw [if_pos hlns] at hE
                have := tryKvkNames_err O (lns.take 3) _ _ me re tre hE
                rw [← h.2.1, this]
                exact nlR2_location r0 lns codes
              · rw [if_neg hlns] at hE
                simp at hE
            | ok pr =>
              obtain ⟨ores, tr3⟩ := pr
              rw [hE] at h
              cases ores with
              | some rfound =>
                dsimp only at h
                simp at h
              | none =>
                dsimp only at h
                cases hl : O.leiLookup name with
                | error m2 =>
                  rw [hl] at h
                  simp only [Except.error.injEq, Prod.mk.injEq] at h
                  rw [← h.2.1]
                  exact nlR2_location r0 lns codes
                | ok pl =>
                  obtain ⟨lc0, lname0⟩ := pl
                  rw [hl] at h
                  dsimp only at h
                  cases hE2 : (if ¬ truthy lc0 = true ∧ lns ≠ [] then
                      tryLeiNames O (lns.take 2)
                        { (match lns with
                           | [] => r0
                           | (n, src) :: _ =>
                             { r0 with legal_name_website := n, legal_name_source := src }) with
                          kvk_number := codes.kvk
                          rsin := codes.rsin
                          lei := codes.lei
                          btw := codes.btw }
                        (tr3 ++ [NLTag.leiLookup name])
                    else Except.ok ((lc0, lname0), tr3 ++ [NLTag.leiLookup name])) with
                  | error e =>
                    rw [hE2] at h
                    dsimp only at h
                    obtain ⟨me, re, tre⟩ := e
                    simp only [Except.error.injEq, Prod.mk.injEq] at h
                    by_cases hcond : ¬ truthy lc0 = true ∧ lns ≠ []
                    · rw [if_pos hcond] at hE2
                      have := tryLeiNames_err O (lns.take 2) _ _ me re tre hE2
                      rw [← h.2.1, this]
                      exact nlR2_location r0 lns codes
                    · rw [if_neg hcond] at hE2
                      simp at hE2
                  | ok pr2 =>
                    obtain ⟨⟨lc, lname⟩, tr5⟩ := pr2
                    rw [hE2] at h
                    dsimp only at h
                    by_cases hlc : truthy lc = true
                    · rw [if_pos hlc] at h
                      simp at h
                    · rw [if_neg hlc] at h
                      by_cases hrb : truthy codes.rsin = true ∨ truthy codes.btw = true
                      · rw [if_pos hrb] at h
                        simp at h
                      · rw [if_neg hrb] at h
                        simp at h

/-- When the try-block returns normally with the Step-3 provenance tag,
the trace contains no LEI-lookup call: the LEI step was skipped. -/
theorem nlSteps_ok_lei_free (O : NLOracle) (name website : Str) (r0 : NLResult)
    (res : NLResult) (tr : List NLTag)
    (h : nlSteps O name website r0 = Except.ok (res, tr))
    (hloc : res.search_location = String.toList "kvk_via_website_name")
    (hr0 : r0.search_location = []) :
    ∀ n, NLTag.leiLookup n ∉ tr := by
  rw [nlSteps] at h
  cases hk : O.kvkSearch name with
  | error m0 =>
    rw [hk] at h
    simp at h
  | ok p =>
    obtain ⟨kn, kl⟩ := p
    rw [hk] at h
    dsimp only at h
    by_cases hb : truthy kn = true ∧ truthy kl = true
    · rw [if_pos hb] at h
      simp only [Except.ok.injEq, Prod.mk.injEq] at h
      rw [← h.1] at hloc
      dsimp only at hloc
      exact absurd hloc (by decide)
    · rw [if_neg hb] at h
      by_cases hw : website = []
      · rw [if_pos hw] at h
        simp only [Except.ok.injEq, Prod.mk.injEq] at h
        rw [← h.1] at hloc
        dsimp only at hloc
        rw [hr0] at hloc
        exact absurd hloc (by decide)
      · rw [if_neg hw] at h
        cases hwi : O.websiteInfo website name with
        | error m1 =>
          rw [hwi] at h
          simp at h
        | ok q =>
          obtain ⟨lns, codes⟩ := q
          rw [hwi] at h
          dsimp only at h
          by_cases hck : truthy codes.kvk = true
          · rw [if_pos hck] at h
            simp only [Except.ok.injEq, Prod.mk.injEq] at h
            rw [← h.1] at hloc
            dsimp only at hloc
            exact absurd hloc (by decide)
          · rw [if_neg hck] at h
            cases hE : (if lns ≠ [] then tryKvkNames O (lns.take 3)
                { (match lns with
                   | [] => r0
                   | (n, src) :: _ =>
                     { r0 with legal_name_website := n, legal_name_source := src }) with
                  kvk_number := codes.kvk
                  rsin := codes.rsin
                  lei := codes.lei
                  btw := codes.btw }
                ([NLTag.kvkSearch name] ++ [NLTag.websiteInfo website name])
              else Except.ok (none, [NLTag.kvkSearch name]
                ++ [NLTag.websiteInfo website name])) with
            | error e =>
              rw [hE] at h
              dsimp only at h
              simp at h
            | ok pr =>
              obtain ⟨ores, tr3⟩ := pr
              rw [hE] at h
              cases ores with
              | some rfound =>
                dsimp only at h
                simp only [Except.ok.injEq, Prod.mk.injEq] at h
                obtain ⟨h1, h2⟩ := h
                subst h2
                by_cases hlns : lns ≠ []
                · rw [if_pos hlns] at hE
                  obtain ⟨pre, hpre, hall⟩ :=
                    tryKvkNames_trace O (lns.take 3) _ _ (some rfound) tr3 hE
                  intro n hmem
                  rw [hpre] at hmem
                  rcases List.mem_append.mp hmem with hin | hin
                  · rcases List.mem_append.mp hin with h1 | h1
                    · rw [List.mem_singleton] at h1
                      cases h1
                    · rw [List.mem_singleton] at h1
                      cases h1
                  · obtain ⟨n', hn'⟩ := hall _ hin
                    cases hn'
                · rw [if_neg hlns] at hE
                  simp at hE
              | none =>
                dsimp only at h
                cases hl : O.leiLookup name with
                | error m2 =>
                  rw [hl] at h
                  simp at h
                | ok pl =>
                  obtain ⟨lc0, lname0⟩ := pl
                  rw [hl] at h
                  dsimp only at h
                  cases hE2 : (if ¬ truthy lc0 = true ∧ lns ≠ [] then
                      tryLeiNames O (lns.take 2)
                        { (match lns with
                           | [] => r0
                           | (n, src) :: _ =>
                             { r0 with legal_name_website := n, legal_name_source := src }) with
                          kvk_number := codes.kvk
                          rsin := codes.rsin
                          lei := codes.lei
                          btw := codes.btw }
                        (tr3 ++ [NLTag.leiLookup name])
                    else Except.ok ((lc0, lname0), tr3 ++ [NLTag.leiLookup name])) with
                  | error e =>
                    rw [hE2] at h
                    dsimp only at h
                    simp at h
                  | ok pr2 =>
                    obtain ⟨⟨lc, lname⟩, tr5⟩ := pr2
                    rw [hE2] at h
                    dsimp only at h
                    by_cases hlc : truthy lc = true
                    · rw [if_pos hlc] at h
                      simp only [Except.ok.injEq, Prod.mk.injEq] at h
                      rw [← h.1] at hloc
                      dsimp only at hloc
                      exact absurd hloc (by decide)
                    · rw [if_neg hlc] at h
                      by_cases hrb : truthy codes.rsin = true ∨ truthy codes.btw = true
                      · rw [if_pos hrb] at h
                        simp only [Except.ok.injEq, Prod.mk.injEq] at h
                        rw [← h.1] at hloc
                        dsimp only at hloc
                        exact absurd hloc (by decide)
                      · rw [if_neg hrb] at h
                        simp only [Except.ok.injEq, Prod.mk.injEq] at h
                        rw [← h.1] at hloc
                        dsimp only at hloc
                        exact absurd hloc (by decide)

/-- **C7**.  Within one Dutch resolution, once a strategy step yields a
Found-eligible result, no subsequent strategy step runs: a Step-1 registry
hit leaves a single-call trace and returns `found`; a Step-2 website KvK
hit leaves exactly the registry call and the one website scan; and a
Step-3 resolution (provenance `kvk_via_website_name`) never reaches the
Step-4 LEI lookup. -/
theorem C7_short_circuit (O : NLOracle) (name web : Str) :
    (∀ kn kl, O.kvkSearch name = Except.ok (kn, kl) →
      truthy kn = true → truthy kl = true →
      (process_single_dutch_company O name web).2 = [NLTag.kvkSearch name]
      ∧ (process_single_dutch_company O name web).1.status = String.toList "found")
    ∧ (∀ kn kl lns codes, O.kvkSearch name = Except.ok (kn, kl) →
      ¬ (truthy kn = true ∧ truthy kl = true) →
      normWebsite web ≠ [] →
      O.websiteInfo (normWebsite web) name = Except.ok (lns, codes) →
      truthy codes.kvk = true →
      (process_single_dutch_company O name web).2
        = [NLTag.kvkSearch name, NLTag.websiteInfo (normWebsite web) name])
    ∧ ((process_single_dutch_company O name web).1.search_location
        = String.toList "kvk_via_website_name" →
      ∀ n, NLTag.leiLookup n ∉ (process_single_dutch_company O name web).2) := by
  refine ⟨?_, ?_, ?_⟩
  · intro kn kl hk htk htl
    unfold process_single_dutch_company
    dsimp only
    unfold nlSteps
    rw [hk]
    dsimp only
    rw [if_pos (And.intro htk htl)]
    exact ⟨rfl, rfl⟩
  · intro kn kl lns codes hk hnb hwn hwi hck
    unfold process_single_dutch_company
    dsimp only
    unfold nlSteps
    rw [hk]
    dsimp only
    rw [if_neg hnb, if_neg hwn, hwi]
    dsimp only
    rw [if_pos hck]
    rfl
  · intro hloc n
    unfold process_single_dutch_company at hloc ⊢
    dsimp only at hloc ⊢
    cases hs : nlSteps O name (normWebsite web) (nlInit name (normWebsite web)) with
    | ok p =>
      obtain ⟨res, tr⟩ := p
      rw [hs] at hloc
      dsimp only at hloc ⊢
      exact nlSteps_ok_lei_free O name (normWebsite web) _ res tr hs hloc rfl n
    | error e =>
      obtain ⟨m, r, tr⟩ := e
      rw [hs] at hloc
      dsimp only at hloc ⊢
      have hl := nlSteps_err_location O name (normWebsite web) _ m r tr hs
      rw [hl] at hloc
      have hinit : (nlInit name (normWebsite web)).search_location = [] := rfl
      rw [hinit] at hloc
      exact absurd hloc (by decide)

/-- Witness for C7: one concrete scenario per conjunct. -/
theorem C7_short_circuit_witness :
    ((process_single_dutch_company nlOracleC7a (String.toList "Acme")
        (String.toList "acme.nl")).2 = [NLTag.kvkSearch (String.toList "Acme")]
      ∧ (process_single_dutch_company nlOracleC7a (String.toList "Acme")
        (String.toList "acme.nl")).1.status = String.toList "found")
    ∧ (process_single_dutch_company nlOracleC7b (String.toList "Acme")
        (String.toList "acme.nl")).2
      = [NLTag.kvkSearch (String.toList "Acme"),
         NLTag.websiteInfo (normWebsite (String.toList "acme.nl")) (String.toList "Acme")]
    ∧ NLTag.leiLookup (String.toList "Acme")
      ∉ (process_single_dutch_company nlOracleC7c (String.toList "Acme")
          (String.toList "acme.nl")).2 :=
  ⟨(C7_short_circuit nlOracleC7a (String.toList "Acme") (String.toList "acme.nl")).1
      (some (String.toList "12345678")) (some (String.toList "Acme BV"))
      rfl (by decide) (by decide),
   (C7_short_circuit nlOracleC7b (String.toList "Acme") (String.toList "acme.nl")).2.1
      none none [] { kvk := some (String.toList "44444444") }
      rfl (by decide) (by decide) rfl (by decide),
   (C7_short_circuit nlOracleC7c (String.toList "Acme") (String.toList "acme.nl")).2.2
      rfl (String.toList "Acme")⟩

/-- **C9 counterexample**: with no website, the registry step RUNS (the
trace shows the register search) and finds nothing, yet the resolution
terminates with status `no_website`, not `not_found` — the claim pairs the
two statuses the other way round. -/
theorem C9_counterexample :
    (process_single_dutch_company nlOracleC9 (String.toList "Acme") []).1.status
        = String.toList "no_website"
    ∧ (process_single_dutch_company nlOracleC9 (String.toList "Acme") []).2
        = [NLTag.kvkSearch (String.toList "Acme")]
    ∧ String.toList "no_website" ≠ String.toList "not_found" := by
  refine ⟨rfl, rfl, by decide⟩

/-- **C9** (amended).  With no website and no registry match, the
standalone Dutch pipeline terminates with `no_website` — even though its
registry step always runs first and found nothing — while the
orchestrator's Dutch extractor, which has no registry step at all,
terminates with `Not Found` on a query without a website. -/
theorem C9_no_website_amended :
    (∀ (O : NLOracle) (name web : Str) (kn kl : Option Str),
        O.kvkSearch name = Except.ok (kn, kl) →
        ¬ (truthy kn = true ∧ truthy kl = true) →
        normWebsite web = [] →
        (process_single_dutch_company O name web).1.status = String.toList "no_website"
        ∧ (process_single_dutch_company O name web).2 = [NLTag.kvkSearch name])
    ∧ (∀ (net : NetOracle) (name : Str) (url : Option Str),
        truthy url = false →
        (MC_NL_process_company net name url).status = String.toList "Not Found") := by
  constructor
  · intro O name web kn kl hk hnb hw
    unfold process_single_dutch_company
    dsimp only
    rw [hw]
    unfold nlSteps
    rw [hk]
    dsimp only
    rw [if_neg hnb, if_pos rfl]
    exact ⟨rfl, rfl⟩
  · intro net name url hu
    unfold MC_NL_process_company
    rw [hu]
    dsimp only
    rfl

/-- Witness for the amended C9. -/
theorem C9_no_website_amended_witness :
    ((process_single_dutch_company nlOracleC9 (String.toList "Beta")
        (String.toList "   ")).1.status = String.toList "no_website"
      ∧ (process_single_dutch_company nlOracleC9 (String.toList "Beta")
          (String.toList "   ")).2 = [NLTag.kvkSearch (String.toList "Beta")])
    ∧ (MC_NL_process_company netC2 (String.toList "Beta") none).status
      = String.toList "Not Found" :=
  ⟨C9_no_website_amended.1 nlOracleC9 (String.toList "Beta") (String.toList "   ")
      none none rfl (by decide) (by decide),
   C9_no_website_amended.2 netC2 (String.toList "Beta") none rfl⟩

end AppVat
